import Mathlib

/-!
Verification of the starfield-js ship-swarm / star-field model.

The definitions below are a shallow embedding of the JavaScript sources
`src/SpaceShip.js` and `src/Starfield.js` (plus the delta-time Starfield
variant).  JavaScript numbers are modelled as real numbers (exact real
arithmetic); integer-valued counters are modelled as naturals; strings of
hex digits are modelled as lists of characters.  Randomness is modelled by
explicit parameters holding the values returned by `Math.random()` at each
call site.
-/

noncomputable section

open Real

/-! ## JavaScript numeric primitives -/

/-- Truncation toward zero, as JavaScript's implicit truncation in the
`%` operator: `trunc x = ⌊x⌋` for `x ≥ 0` and `⌈x⌉` for `x < 0`. -/
def jsTrunc (x : ℝ) : ℤ :=
  if 0 ≤ x then ⌊x⌋ else ⌈x⌉

/-- JavaScript's `%` remainder operator on numbers: `a % b = a - b * trunc (a / b)`
(the result has the sign of the dividend). -/
def jsRem (a b : ℝ) : ℝ :=
  a - b * jsTrunc (a / b)

/-- `Math.sign`. -/
def jsSign (x : ℝ) : ℝ :=
  if 0 < x then 1 else if x < 0 then -1 else 0

/-- The pair of `while` loops
`while (dirDiff > Math.PI) dirDiff -= 2π; while (dirDiff < -Math.PI) dirDiff += 2π`
from `SpaceShip.update` / `applyFollowingBehavior`, in closed form: the
first loop subtracts `2π` exactly `⌈(a-π)/(2π)⌉` times, the second adds it
`⌈(-π-a)/(2π)⌉` times. -/
def wrapToPi (a : ℝ) : ℝ :=
  if Real.pi < a then a - 2 * Real.pi * ⌈(a - Real.pi) / (2 * Real.pi)⌉
  else if a < -Real.pi then a + 2 * Real.pi * ⌈(-Real.pi - a) / (2 * Real.pi)⌉
  else a

/-! ### Lemmas about the primitives -/

theorem jsRem_of_nonneg (a b : ℝ) (ha : 0 ≤ a) (hb : 0 < b) :
    jsRem a b = b * Int.fract (a / b) := by
  have hab : (0:ℝ) ≤ a / b := div_nonneg ha hb.le
  have hbne : b ≠ 0 := ne_of_gt hb
  unfold jsRem jsTrunc
  rw [if_pos hab, Int.fract, mul_sub, mul_comm b (a / b), div_mul_cancel₀ a hbne]

theorem jsRem_nonneg (a b : ℝ) (ha : 0 ≤ a) (hb : 0 < b) : 0 ≤ jsRem a b := by
  rw [jsRem_of_nonneg a b ha hb]
  exact mul_nonneg hb.le (Int.fract_nonneg _)

theorem jsRem_lt (a b : ℝ) (ha : 0 ≤ a) (hb : 0 < b) : jsRem a b < b := by
  rw [jsRem_of_nonneg a b ha hb]
  calc b * Int.fract (a / b) < b * 1 := by
        exact (mul_lt_mul_left hb).mpr (Int.fract_lt_one _)
    _ = b := mul_one b

theorem jsRem_eq_self (a b : ℝ) (ha : 0 ≤ a) (hab : a < b) : jsRem a b = a := by
  have hb : 0 < b := lt_of_le_of_lt ha hab
  rw [jsRem_of_nonneg a b ha hb, Int.fract_eq_self.mpr
    ⟨div_nonneg ha hb.le, (div_lt_one hb).mpr hab⟩]
  field_simp

theorem jsRem_add_left (a b : ℝ) (ha : 0 ≤ a) (hb : 0 < b) :
    jsRem (a + b) b = jsRem a b := by
  have h1 : (0:ℝ) ≤ a + b := by linarith
  rw [jsRem_of_nonneg a b ha hb, jsRem_of_nonneg (a + b) b h1 hb]
  have : (a + b) / b = a / b + 1 := by field_simp
  rw [this, Int.fract_add_one]

theorem wrapToPi_eq_self (a : ℝ) (h1 : -Real.pi ≤ a) (h2 : a ≤ Real.pi) :
    wrapToPi a = a := by
  unfold wrapToPi
  rw [if_neg (by linarith), if_neg (by linarith)]

theorem wrapToPi_mem (a : ℝ) : -Real.pi ≤ wrapToPi a ∧ wrapToPi a ≤ Real.pi := by
  have hpi : (0:ℝ) < Real.pi := Real.pi_pos
  unfold wrapToPi
  have h2pi : (0:ℝ) < 2 * Real.pi := by linarith
  by_cases h1 : Real.pi < a
  · rw [if_pos h1]
    set q : ℝ := (a - Real.pi) / (2 * Real.pi) with hq
    have hqv : q * (2 * Real.pi) = a - Real.pi := by
      rw [hq]
      exact div_mul_cancel₀ _ (ne_of_gt h2pi)
    have hle : q ≤ (⌈q⌉ : ℝ) := Int.le_ceil q
    have hlt : (⌈q⌉ : ℝ) < q + 1 := Int.ceil_lt_add_one q
    have hA : q * (2 * Real.pi) ≤ (⌈q⌉ : ℝ) * (2 * Real.pi) :=
      mul_le_mul_of_nonneg_right hle h2pi.le
    have hB : (⌈q⌉ : ℝ) * (2 * Real.pi) < (q + 1) * (2 * Real.pi) :=
      (mul_lt_mul_right h2pi).mpr hlt
    rw [add_mul, one_mul] at hB
    constructor
    · nlinarith [hA, hB, hqv]
    · nlinarith [hA, hB, hqv]
  · rw [if_neg h1]
    by_cases h2 : a < -Real.pi
    · rw [if_pos h2]
      set q : ℝ := (-Real.pi - a) / (2 * Real.pi) with hq
      have hqv : q * (2 * Real.pi) = -Real.pi - a := by
        rw [hq]
        exact div_mul_cancel₀ _ (ne_of_gt h2pi)
      have hle : q ≤ (⌈q⌉ : ℝ) := Int.le_ceil q
      have hlt : (⌈q⌉ : ℝ) < q + 1 := Int.ceil_lt_add_one q
      have hA : q * (2 * Real.pi) ≤ (⌈q⌉ : ℝ) * (2 * Real.pi) :=
        mul_le_mul_of_nonneg_right hle h2pi.le
      have hB : (⌈q⌉ : ℝ) * (2 * Real.pi) < (q + 1) * (2 * Real.pi) :=
        (mul_lt_mul_right h2pi).mpr hlt
      rw [add_mul, one_mul] at hB
      constructor
      · nlinarith [hA, hB, hqv]
      · nlinarith [hA, hB, hqv]
    · rw [if_neg h2]
      constructor <;> linarith [not_lt.mp h1, not_lt.mp h2]

theorem abs_wrapToPi_le (a : ℝ) : |wrapToPi a| ≤ Real.pi :=
  abs_le.mpr ⟨(wrapToPi_mem a).1, (wrapToPi_mem a).2⟩

theorem abs_jsSign_le (x : ℝ) : |jsSign x| ≤ 1 := by
  unfold jsSign
  split_ifs <;> simp

theorem jsSign_neg_of_neg (x : ℝ) (h : x < 0) : jsSign x = -1 := by
  unfold jsSign
  rw [if_neg (by linarith), if_pos h]

theorem jsSign_pos_of_pos (x : ℝ) (h : 0 < x) : jsSign x = 1 := by
  unfold jsSign
  rw [if_pos h]

/-! ## SpaceShip data model (src/SpaceShip.js) -/

/-- A trail sample, as pushed by `this.positions.unshift({x, y, direction})`. -/
structure Pt where
  x : ℝ
  y : ℝ
  direction : ℝ

/-- The canvas dimensions read through `this.canvas`. -/
structure Canvas where
  width : ℝ
  height : ℝ

/-- `this.edgeProximityFrames`. -/
structure Epf where
  left : ℕ
  right : ℕ
  top : ℕ
  bottom : ℕ

/-- `this.props` after the constructor merged the defaults with the caller's
overrides and resolved the tail colors. -/
structure Props where
  speed : ℝ
  size : ℝ
  color : String
  tailStartColor : String
  tailEndColor : String
  curveIntensity : ℝ
  curveChangeRate : ℝ
  tailLength : ℕ
  tailMaxDistance : ℝ
  tailOpacity : ℝ
  edgeDistance : ℝ
  edgeCurveIntensity : ℝ
  stuckThreshold : ℕ
  stuckEscapeMultiplier : ℝ
  cornerDetectionThreshold : ℝ
  index : ℕ
  swarmCount : ℕ
  swarmSpread : ℝ
  swarmOffset : ℝ
  followEnabled : Bool
  followStrength : ℝ
  followDistance : ℝ
  followIndex : Option ℕ

/-- The values produced by `Math.random()` at the call sites that one call to
`update` may reach: the corner jitter (line 298), the drastic stuck escape
(line 304), the wander resampling test (line 319) and the wander resample
(line 320). -/
structure RandVals where
  jitter : ℝ
  escape : ℝ
  wanderTest : ℝ
  wanderSample : ℝ

/-- The mutable per-ship state.  `target` is the position of `this.targetShip`
at the moment `applyFollowingBehavior` reads it (`none` models a null
`targetShip`). -/
structure Ship where
  x : ℝ
  y : ℝ
  direction : ℝ
  curveValue : ℝ
  positions : List Pt
  edgeProximityFrames : Epf
  lastX : ℝ
  lastY : ℝ
  stuckFrames : ℕ
  isStuck : Bool
  target : Option (ℝ × ℝ)

/-- `this.curveValue` as set by `init` (SpaceShip.js line 104). -/
def initCurveValue (p : Props) : ℝ :=
  ((p.index : ℝ) / (p.swarmCount : ℝ) - 0.5) * p.curveIntensity

/-- `Math.atan2(y, x)`: the argument of the point `(x, y)`, in `(-π, π]`. -/
def jsAtan2 (y x : ℝ) : ℝ := Complex.arg ⟨x, y⟩

/-- Intermediate state threaded through the four sequential edge branches of
`update` (lines 146-293): the current direction, the proximity counters, and
the `nearEdges` flags. -/
structure SteerSt where
  d : ℝ
  epf : Epf
  nearLeft : Bool
  nearRight : Bool
  nearTop : Bool
  nearBottom : Bool

/-- Left-edge branch (lines 159-197).  When this branch runs, `nearEdges.top`
and `nearEdges.bottom` have not been set yet, so the `idealDirection`
adjustments at lines 178-182 never fire and the ideal direction is always 0. -/
def steerLeft (p : Props) (x1 : ℝ) (stuck : Bool) (st : SteerSt) : SteerSt :=
  if x1 < p.edgeDistance then
    let frames := st.epf.left + 1
    let distanceFactor := x1 / p.edgeDistance
    let c0 := p.edgeCurveIntensity * (1 - distanceFactor)
    let c := if stuck ∨ frames > p.stuckThreshold then c0 * p.stuckEscapeMultiplier else c0
    let dirDiff := wrapToPi (0 - st.d)
    { st with d := st.d + c * jsSign dirDiff,
              epf := { st.epf with left := frames },
              nearLeft := true }
  else
    { st with epf := { st.epf with left := 0 } }

/-- Right-edge branch (lines 199-229).  As for the left edge, `nearEdges.top`
and `nearEdges.bottom` are still false here, so the ideal direction is
always π. -/
def steerRight (cv : Canvas) (p : Props) (x1 : ℝ) (stuck : Bool) (st : SteerSt) : SteerSt :=
  if x1 > cv.width - p.edgeDistance then
    let frames := st.epf.right + 1
    let distanceFactor := (cv.width - x1) / p.edgeDistance
    let c0 := p.edgeCurveIntensity * (1 - distanceFactor)
    let c := if stuck ∨ frames > p.stuckThreshold then c0 * p.stuckEscapeMultiplier else c0
    let dirDiff := wrapToPi (Real.pi - st.d)
    { st with d := st.d + c * jsSign dirDiff,
              epf := { st.epf with right := frames },
              nearRight := true }
  else
    { st with epf := { st.epf with right := 0 } }

/-- Top-edge branch (lines 231-261). -/
def steerTop (p : Props) (y1 : ℝ) (stuck : Bool) (st : SteerSt) : SteerSt :=
  if y1 < p.edgeDistance then
    let frames := st.epf.top + 1
    let distanceFactor := y1 / p.edgeDistance
    let c0 := p.edgeCurveIntensity * (1 - distanceFactor)
    let c := if stuck ∨ frames > p.stuckThreshold then c0 * p.stuckEscapeMultiplier else c0
    let ideal := if st.nearLeft then Real.pi / 4
      else if st.nearRight then 3 * Real.pi / 4 else Real.pi / 2
    let dirDiff := wrapToPi (ideal - st.d)
    { st with d := st.d + c * jsSign dirDiff,
              epf := { st.epf with top := frames },
              nearTop := true }
  else
    { st with epf := { st.epf with top := 0 } }

/-- Bottom-edge branch (lines 263-293). -/
def steerBottom (cv : Canvas) (p : Props) (y1 : ℝ) (stuck : Bool) (st : SteerSt) : SteerSt :=
  if y1 > cv.height - p.edgeDistance then
    let frames := st.epf.bottom + 1
    let distanceFactor := (cv.height - y1) / p.edgeDistance
    let c0 := p.edgeCurveIntensity * (1 - distanceFactor)
    let c := if stuck ∨ frames > p.stuckThreshold then c0 * p.stuckEscapeMultiplier else c0
    let ideal := if st.nearLeft then 7 * Real.pi / 4
      else if st.nearRight then 5 * Real.pi / 4 else 3 * Real.pi / 2
    let dirDiff := wrapToPi (ideal - st.d)
    { st with d := st.d + c * jsSign dirDiff,
              epf := { st.epf with bottom := frames },
              nearBottom := true }
  else
    { st with epf := { st.epf with bottom := 0 } }

/-- How many edges the ship is near (`edgeCount`). -/
def SteerSt.edgeCount (st : SteerSt) : ℕ :=
  (if st.nearLeft then 1 else 0) + (if st.nearRight then 1 else 0) +
    (if st.nearTop then 1 else 0) + (if st.nearBottom then 1 else 0)

/-- `applyFollowingBehavior` (lines 489-523): returns `some` of the adjusted
direction when following was applied, `none` when it was not (null target or
target farther than `followDistance`). -/
def applyFollowingBehavior (p : Props) (x1 y1 d : ℝ) (target : Option (ℝ × ℝ)) :
    Option ℝ :=
  match target with
  | none => none
  | some (tx, ty) =>
    let dx := tx - x1
    let dy := ty - y1
    let distance := Real.sqrt (dx * dx + dy * dy)
    if distance > p.followDistance then none
    else
      let targetDirection := jsAtan2 dy dx
      let dirDiff := wrapToPi (targetDirection - d)
      let distanceFactor := 1 - distance / p.followDistance
      let adjustmentStrength := p.followStrength * distanceFactor
      some (d + dirDiff * adjustmentStrength)

/-- The `movement` quantity of lines 128-131: displacement between
`lastPosition` (saved at line 109, before integration) and the freshly
integrated position. -/
def updateMovement (p : Props) (s : Ship) : ℝ :=
  let x1 := s.x + Real.cos s.direction * p.speed
  let y1 := s.y + Real.sin s.direction * p.speed
  Real.sqrt ((x1 - s.x) ^ 2 + (y1 - s.y) ^ 2)

/-- `SpaceShip.update` (lines 107-341), with the source's statement order:
save `lastPosition`; integrate the position with the *current* direction;
push the trail sample (which records the current direction) and cap the
trail; stuck detection; the four edge branches; corner jitter; drastic stuck
escape; following or wander when no edge curve was applied; hard position
clamp; direction normalization. -/
def update (cv : Canvas) (p : Props) (r : RandVals) (s : Ship) : Ship :=
  let lastX := s.x
  let lastY := s.y
  let x1 := s.x + Real.cos s.direction * p.speed
  let y1 := s.y + Real.sin s.direction * p.speed
  let positions1 := ({ x := x1, y := y1, direction := s.direction } : Pt) :: s.positions
  let positions2 := if positions1.length > p.tailLength then positions1.dropLast else positions1
  let movement := updateMovement p s
  let sf1 := if movement < p.speed * 0.2 then s.stuckFrames + 1 else s.stuckFrames - 2
  let stuck1 := if movement < p.speed * 0.2 then
      (if sf1 > p.stuckThreshold then true else s.isStuck)
    else (if sf1 = 0 then false else s.isStuck)
  let st0 : SteerSt :=
    { d := s.direction, epf := s.edgeProximityFrames, nearLeft := false,
      nearRight := false, nearTop := false, nearBottom := false }
  let st := steerBottom cv p y1 stuck1
    (steerTop p y1 stuck1 (steerRight cv p x1 stuck1 (steerLeft p x1 stuck1 st0)))
  let d1 := if 2 ≤ st.edgeCount then st.d + (r.jitter - 0.5) * 0.2 else st.d
  let d2 := if stuck1 ∧ sf1 > p.stuckThreshold * 2 then d1 + (r.escape - 0.5) * Real.pi else d1
  let sf2 := if stuck1 ∧ sf1 > p.stuckThreshold * 2 then p.stuckThreshold else sf1
  let edgeCurveApplied := st.nearLeft || st.nearRight || st.nearTop || st.nearBottom
  let cvNew := if r.wanderTest < p.curveChangeRate
    then (r.wanderSample - 0.5) * p.curveIntensity else s.curveValue
  let followD := if p.followEnabled then applyFollowingBehavior p x1 y1 d2 s.target else none
  let d3 := if edgeCurveApplied then d2
    else (match followD with | some dNew => dNew | none => d2 + cvNew)
  let cv1 := if edgeCurveApplied then s.curveValue
    else (match followD with | some _ => s.curveValue | none => cvNew)
  let epf1 := if edgeCurveApplied then st.epf else ⟨0, 0, 0, 0⟩
  let x2 := if x1 < 0 then 0 else x1
  let x3 := if x2 > cv.width then cv.width else x2
  let y2 := if y1 < 0 then 0 else y1
  let y3 := if y2 > cv.height then cv.height else y2
  let dFinal := jsRem (d3 + 2 * Real.pi) (2 * Real.pi)
  { x := x3, y := y3, direction := dFinal, curveValue := cv1,
      positions := positions2, edgeProximityFrames := epf1,
      lastX := lastX, lastY := lastY, stuckFrames := sf2, isStuck := stuck1,
      target := s.target }

/-- `n` consecutive ticks; `r k` supplies the random draws of the `k`-th tick. -/
def updates (cv : Canvas) (p : Props) (r : ℕ → RandVals) : ℕ → Ship → Ship
  | 0, s => s
  | n + 1, s => updates cv p (fun k => r (k + 1)) n (update cv p (r 0) s)

/-- `SpaceShip.setSwarm` (lines 467-486), reduced to the follow-target
choice: the result is the index of `this.targetShip` within the swarm array
(`none` = `targetShip` stays null, its initial value from the constructor). -/
def setSwarm (p : Props) (swarmLength : ℕ) : Option ℕ :=
  if ¬p.followEnabled ∨ swarmLength ≤ 1 then none
  else match p.followIndex with
    | some fi =>
      let followIndex := fi % swarmLength
      if followIndex ≠ p.index then some followIndex else none
    | none => some ((p.index + 1) % swarmLength)

/-! ## Trail rendering (`drawTail`, lines 369-422) -/

/-- Euclidean distance between consecutive trail samples (lines 377-379). -/
def ptDist (a b : Pt) : ℝ :=
  Real.sqrt ((b.x - a.x) * (b.x - a.x) + (b.y - a.y) * (b.y - a.y))

/-- The consecutive-sample distances of a trail, newest first (the values the
first loop of `drawTail` pushes into `distances`, before its early break). -/
def segDists : List Pt → List ℝ
  | a :: b :: rest => ptDist a b :: segDists (b :: rest)
  | _ => []

/-- The first loop of `drawTail` (lines 376-387): it records distances until
the running total first exceeds `tailMaxDistance`, including the distance
that crossed the limit, then breaks. -/
def distancesLoop (tailMaxDistance acc : ℝ) : List ℝ → List ℝ
  | [] => []
  | d :: ds =>
    if acc + d > tailMaxDistance then [d]
    else d :: distancesLoop tailMaxDistance (acc + d) ds

/-- The interpolation factor of line 411:
`Math.min(1.0, currentDistance / (tailMaxDistance * 0.25))`. -/
def drawTailColorFactor (p : Props) (currentDistance : ℝ) : ℝ :=
  min 1 (currentDistance / (p.tailMaxDistance * 0.25))

/-- The second loop of `drawTail` (lines 392-421), reduced to the distances of
the segments it actually strokes: a segment's distance is first added to the
running total; if the opacity `max(0, tailOpacity·(1 - cd/tailMaxDistance))`
is ≤ 0 the loop breaks *before* stroking; otherwise the segment is stroked,
and the loop breaks afterwards if the running total exceeds
`tailMaxDistance`. -/
def strokedDists (p : Props) (acc : ℝ) : List ℝ → List ℝ
  | [] => []
  | d :: ds =>
    let cd := acc + d
    let opacity := max 0 (p.tailOpacity * (1 - cd / p.tailMaxDistance))
    if opacity ≤ 0 then []
    else d :: (if cd > p.tailMaxDistance then [] else strokedDists p cd ds)

/-- Total Euclidean length stroked by one `drawTail` call on trail `l`. -/
def drawTailStrokedTotal (p : Props) (l : List Pt) : ℝ :=
  (strokedDists p 0 (distancesLoop p.tailMaxDistance 0 (segDists l))).sum

/-! ## Starfield (src/Starfield.js and the delta-time variant) -/

/-- One star of the field: position in canvas-centered coordinates and
depth `z`. -/
structure StarPt where
  x : ℝ
  y : ℝ
  z : ℝ

/-- `Starfield` configuration (src/Starfield.js, lines 9-16). -/
structure StarfieldProps where
  starCount : ℕ
  speed : ℝ
  fpsMax : ℝ
  magnification : ℝ

/-- The per-star state step of `Starfield.draw` in src/Starfield.js
(lines 39-44): decrement `z` by the constant `speed * 60 / fpsMax`, and when
the result is ≤ 0 respawn the star at depth `canvas.width` with fresh random
coordinates `rx·width - centerX`, `ry·height - centerY` (`rx`, `ry` are the
two `Math.random()` values). -/
def starStepFixed (p : StarfieldProps) (cv : Canvas) (centerX centerY rx ry : ℝ)
    (s : StarPt) : StarPt :=
  let z1 := s.z - p.speed * 60 / p.fpsMax
  if z1 ≤ 0 then
    { x := rx * cv.width - centerX, y := ry * cv.height - centerY, z := cv.width }
  else
    { s with z := z1 }

/-- The per-star state step of the delta-time `Starfield.draw` variant
(src/unnamed/part_000, lines 52-57): decrement `z` by
`speed * 60 * deltaTime` where `deltaTime` is the elapsed time in seconds
supplied to the frame, with the same respawn rule. -/
def starStepDelta (p : StarfieldProps) (deltaTime : ℝ) (cv : Canvas)
    (centerX centerY rx ry : ℝ) (s : StarPt) : StarPt :=
  let z1 := s.z - p.speed * 60 * deltaTime
  if z1 ≤ 0 then
    { x := rx * cv.width - centerX, y := ry * cv.height - centerY, z := cv.width }
  else
    { s with z := z1 }

/-! ## The SpaceShip constructor (lines 6-68): props merge, no validation -/

/-- The caller-supplied `props` object: any subset of the recognized keys may
be present.  A `none` field models an absent key (and for the tail colors
also a `null` value, which the constructor treats the same way). -/
structure PropsInput where
  speed : Option ℝ := none
  size : Option ℝ := none
  color : Option String := none
  tailStartColor : Option String := none
  tailEndColor : Option String := none
  curveIntensity : Option ℝ := none
  curveChangeRate : Option ℝ := none
  tailLength : Option ℕ := none
  tailMaxDistance : Option ℝ := none
  tailOpacity : Option ℝ := none
  edgeDistance : Option ℝ := none
  edgeCurveIntensity : Option ℝ := none
  stuckThreshold : Option ℕ := none
  stuckEscapeMultiplier : Option ℝ := none
  cornerDetectionThreshold : Option ℝ := none
  index : Option ℕ := none
  swarmCount : Option ℕ := none
  swarmSpread : Option ℝ := none
  swarmOffset : Option ℝ := none
  followEnabled : Option Bool := none
  followStrength : Option ℝ := none
  followDistance : Option ℝ := none
  followIndex : Option ℕ := none

/-- `this.props = { ...defaults, ...props }` followed by the tail-color
fallbacks (constructor lines 9-48).  Every supplied value is taken verbatim:
the constructor performs no range or format validation and never throws. -/
def mkProps (i : PropsInput) : Props :=
  let color := i.color.getD "#ffffff"
  let tailStartColor := match i.tailStartColor with
    | some c => c
    | none => color
  let tailEndColor := match i.tailEndColor with
    | some c => c
    | none => tailStartColor
  { speed := i.speed.getD 3,
    size := i.size.getD 10,
    color := color,
    tailStartColor := tailStartColor,
    tailEndColor := tailEndColor,
    curveIntensity := i.curveIntensity.getD 0.02,
    curveChangeRate := i.curveChangeRate.getD 0.005,
    tailLength := i.tailLength.getD 50,
    tailMaxDistance := i.tailMaxDistance.getD 500,
    tailOpacity := i.tailOpacity.getD 1.0,
    edgeDistance := i.edgeDistance.getD 100,
    edgeCurveIntensity := i.edgeCurveIntensity.getD 0.05,
    stuckThreshold := i.stuckThreshold.getD 50,
    stuckEscapeMultiplier := i.stuckEscapeMultiplier.getD 3.0,
    cornerDetectionThreshold := i.cornerDetectionThreshold.getD 1.5,
    index := i.index.getD 0,
    swarmCount := i.swarmCount.getD 1,
    swarmSpread := i.swarmSpread.getD 0.3,
    swarmOffset := i.swarmOffset.getD 0.1,
    followEnabled := i.followEnabled.getD true,
    followStrength := i.followStrength.getD 0.02,
    followDistance := i.followDistance.getD 200,
    followIndex := i.followIndex }

end

/-! ## Hex colors (`getRGBAFromHex` lines 425-436, `interpolateColors`
lines 439-464).  These are string/integer manipulations and are modelled
computably; the interpolation factor is taken in `ℚ`. -/

/-- The numeric value `parseInt` assigns to a single hex digit. -/
def hexDigitVal (c : Char) : Option ℕ :=
  if c ≤ '9' ∧ '0' ≤ c then some (c.toNat - 48)
  else if c ≤ 'f' ∧ 'a' ≤ c then some (c.toNat - 87)
  else if c ≤ 'F' ∧ 'A' ≤ c then some (c.toNat - 55)
  else none

/-- `parseInt(s, 16)` on a two-character substring: JavaScript parses the
longest valid prefix, so an invalid second digit still yields the first
digit's value, while an invalid first digit yields NaN (modelled `none`). -/
def parseHexByte : List Char → Option ℕ
  | c1 :: c2 :: _ =>
    match hexDigitVal c1 with
    | none => none
    | some a =>
      match hexDigitVal c2 with
      | none => some a
      | some b => some (16 * a + b)
  | [c1] => hexDigitVal c1
  | [] => none

/-- `String.prototype.replace('#', '')`: removes the first occurrence only. -/
def removeFirstHash : List Char → List Char
  | [] => []
  | c :: cs => if c = '#' then cs else c :: removeFirstHash cs

/-- `Math.round`, which rounds half-way cases toward `+∞`. -/
def jsRound (q : ℚ) : ℤ := ⌊q + 1 / 2⌋

/-- The hex digit characters produced by `Number.prototype.toString(16)`
(lowercase). -/
def hexDigitChar (n : ℕ) : Char :=
  Char.ofNat (if n < 10 then 48 + n else 87 + n)

/-- `v.toString(16).padStart(2, '0')` for a channel value; faithful on the
range 0-255 that interpolation of valid channels produces. -/
def toHexByte (v : ℤ) : List Char :=
  let m := v.toNat
  if m < 16 then ['0', hexDigitChar m] else [hexDigitChar (m / 16), hexDigitChar (m % 16)]

/-- `SpaceShip.interpolateColors` (lines 439-464): strip a leading `#`, parse
the three channels of both colors, linearly interpolate each channel,
`Math.round` it, and format the result as `#rrggbb` with lowercase digits.
Returns `none` when a channel fails to parse (the source would propagate NaN
into the output string). -/
def interpolateColors (color1 color2 : List Char) (factor : ℚ) : Option (List Char) := do
  let c1 := removeFirstHash color1
  let c2 := removeFirstHash color2
  let r1 ← parseHexByte (c1.take 2)
  let g1 ← parseHexByte ((c1.drop 2).take 2)
  let b1 ← parseHexByte ((c1.drop 4).take 2)
  let r2 ← parseHexByte (c2.take 2)
  let g2 ← parseHexByte ((c2.drop 2).take 2)
  let b2 ← parseHexByte ((c2.drop 4).take 2)
  let r := jsRound ((r1 : ℚ) + factor * ((r2 : ℚ) - (r1 : ℚ)))
  let g := jsRound ((g1 : ℚ) + factor * ((g2 : ℚ) - (g1 : ℚ)))
  let b := jsRound ((b1 : ℚ) + factor * ((b2 : ℚ) - (b1 : ℚ)))
  pure ('#' :: (toHexByte r ++ toHexByte g ++ toHexByte b))

/-- `SpaceShip.getRGBAFromHex` (lines 425-436), reduced to the three parsed
channel values that the source splices into the returned
`rgba(r, g, b, opacity)` string; a `none` channel is the source's NaN. -/
def getRGBAFromHex (hex : List Char) : Option ℕ × Option ℕ × Option ℕ :=
  let h := removeFirstHash hex
  (parseHexByte (h.take 2), parseHexByte ((h.drop 2).take 2),
    parseHexByte ((h.drop 4).take 2))

/-! ## Evaluation lemmas for `update` -/

theorem updateMovement_eq (p : Props) (s : Ship) : updateMovement p s = |p.speed| := by
  have hc := Real.sin_sq_add_cos_sq s.direction
  have key : (s.x + Real.cos s.direction * p.speed - s.x) ^ 2 +
      (s.y + Real.sin s.direction * p.speed - s.y) ^ 2 = p.speed ^ 2 := by
    linear_combination p.speed ^ 2 * hc
  simp only [updateMovement]
  rw [key, Real.sqrt_sq_eq_abs]

theorem updateMovement_not_lt (p : Props) (s : Ship) (hsp : 0 ≤ p.speed) :
    ¬ updateMovement p s < p.speed * 0.2 := by
  rw [updateMovement_eq, abs_of_nonneg hsp]
  intro h
  linarith

/-- The four borders are all farther than `edgeDistance` from the freshly
integrated position (the condition `update` actually branches on). -/
def FarFromEdges (cv : Canvas) (p : Props) (s : Ship) : Prop :=
  ¬(s.x + Real.cos s.direction * p.speed < p.edgeDistance) ∧
  ¬(s.x + Real.cos s.direction * p.speed > cv.width - p.edgeDistance) ∧
  ¬(s.y + Real.sin s.direction * p.speed < p.edgeDistance) ∧
  ¬(s.y + Real.sin s.direction * p.speed > cv.height - p.edgeDistance)

theorem update_eval_noEdge (cv : Canvas) (p : Props) (r : RandVals) (s : Ship)
    (hfar : FarFromEdges cv p s)
    (hsp : 0 ≤ p.speed) (heD : 0 ≤ p.edgeDistance)
    (hstuck : s.isStuck = false) (htgt : s.target = none) :
    update cv p r s =
      { x := s.x + Real.cos s.direction * p.speed,
        y := s.y + Real.sin s.direction * p.speed,
        direction := jsRem (s.direction +
          (if r.wanderTest < p.curveChangeRate
            then (r.wanderSample - 0.5) * p.curveIntensity else s.curveValue) +
          2 * Real.pi) (2 * Real.pi),
        curveValue := if r.wanderTest < p.curveChangeRate
          then (r.wanderSample - 0.5) * p.curveIntensity else s.curveValue,
        positions := if ((⟨s.x + Real.cos s.direction * p.speed,
              s.y + Real.sin s.direction * p.speed, s.direction⟩ : Pt)
              :: s.positions).length > p.tailLength
          then ((⟨s.x + Real.cos s.direction * p.speed,
              s.y + Real.sin s.direction * p.speed, s.direction⟩ : Pt)
              :: s.positions).dropLast
          else (⟨s.x + Real.cos s.direction * p.speed,
              s.y + Real.sin s.direction * p.speed, s.direction⟩ : Pt)
              :: s.positions,
        edgeProximityFrames := ⟨0, 0, 0, 0⟩,
        lastX := s.x, lastY := s.y,
        stuckFrames := s.stuckFrames - 2, isStuck := false,
        target := none } := by
  obtain ⟨hL, hR, hT, hB⟩ := hfar
  have hmv := updateMovement_not_lt p s hsp
  have hx1 : ¬(s.x + Real.cos s.direction * p.speed < 0) := by
    push_neg
    exact le_trans heD (not_lt.mp hL)
  have hx2 : ¬(s.x + Real.cos s.direction * p.speed > cv.width) := by
    push_neg
    have := not_lt.mp hR
    linarith
  have hy1 : ¬(s.y + Real.sin s.direction * p.speed < 0) := by
    push_neg
    exact le_trans heD (not_lt.mp hT)
  have hy2 : ¬(s.y + Real.sin s.direction * p.speed > cv.height) := by
    push_neg
    have := not_lt.mp hB
    linarith
  simp only [update, steerLeft, steerRight, steerTop, steerBottom, SteerSt.edgeCount,
    applyFollowingBehavior, if_neg hmv, if_neg hL, if_neg hR, if_neg hT, if_neg hB,
    if_neg hx1, if_neg hx2, if_neg hy1, if_neg hy2, hstuck, htgt, ite_self]
  simp

theorem update_eval_leftOnly (cv : Canvas) (p : Props) (r : RandVals) (s : Ship)
    (hL : s.x + Real.cos s.direction * p.speed < p.edgeDistance)
    (hR : ¬(s.x + Real.cos s.direction * p.speed > cv.width - p.edgeDistance))
    (hT : ¬(s.y + Real.sin s.direction * p.speed < p.edgeDistance))
    (hB : ¬(s.y + Real.sin s.direction * p.speed > cv.height - p.edgeDistance))
    (hx0 : 0 ≤ s.x + Real.cos s.direction * p.speed)
    (hsp : 0 ≤ p.speed) (heD : 0 ≤ p.edgeDistance)
    (hstuck : s.isStuck = false)
    (hframes : ¬(s.edgeProximityFrames.left + 1 > p.stuckThreshold)) :
    update cv p r s =
      { x := s.x + Real.cos s.direction * p.speed,
        y := s.y + Real.sin s.direction * p.speed,
        direction := jsRem (s.direction +
          p.edgeCurveIntensity *
            (1 - (s.x + Real.cos s.direction * p.speed) / p.edgeDistance) *
            jsSign (wrapToPi (0 - s.direction)) +
          2 * Real.pi) (2 * Real.pi),
        curveValue := s.curveValue,
        positions := if ((⟨s.x + Real.cos s.direction * p.speed,
              s.y + Real.sin s.direction * p.speed, s.direction⟩ : Pt)
              :: s.positions).length > p.tailLength
          then ((⟨s.x + Real.cos s.direction * p.speed,
              s.y + Real.sin s.direction * p.speed, s.direction⟩ : Pt)
              :: s.positions).dropLast
          else (⟨s.x + Real.cos s.direction * p.speed,
              s.y + Real.sin s.direction * p.speed, s.direction⟩ : Pt)
              :: s.positions,
        edgeProximityFrames := ⟨s.edgeProximityFrames.left + 1, 0, 0, 0⟩,
        lastX := s.x, lastY := s.y,
        stuckFrames := s.stuckFrames - 2, isStuck := false,
        target := s.target } := by
  have hmv := updateMovement_not_lt p s hsp
  have hx2 : ¬(s.x + Real.cos s.direction * p.speed > cv.width) := by
    push_neg
    have := not_lt.mp hR
    linarith
  have hnx : ¬(s.x + Real.cos s.direction * p.speed < 0) := not_lt.mpr hx0
  have hy1 : ¬(s.y + Real.sin s.direction * p.speed < 0) := by
    push_neg
    exact le_trans heD (not_lt.mp hT)
  have hy2 : ¬(s.y + Real.sin s.direction * p.speed > cv.height) := by
    push_neg
    have := not_lt.mp hB
    linarith
  simp only [update, steerLeft, steerRight, steerTop, steerBottom, SteerSt.edgeCount,
    if_neg hmv, if_pos hL, if_neg hR, if_neg hT, if_neg hB,
    if_neg hnx, if_neg hx2, if_neg hy1, if_neg hy2, hstuck, ite_self]
  simp only [Bool.false_eq_true, false_or, if_neg hframes]
  simp

/-! ## Stuck-detector lemmas (towards C3) -/

theorem update_stuck_fields (cv : Canvas) (p : Props) (r : RandVals) (s : Ship)
    (hsp : 0 ≤ p.speed) (hstuck : s.isStuck = false) :
    (update cv p r s).stuckFrames = s.stuckFrames - 2 ∧
      (update cv p r s).isStuck = false := by
  have hmv := updateMovement_not_lt p s hsp
  simp only [update, if_neg hmv, hstuck, ite_self]
  simp

theorem updates_stuck_invariant (cv : Canvas) (p : Props) (rf : ℕ → RandVals)
    (hsp : 0 ≤ p.speed) :
    ∀ (n : ℕ) (s : Ship), s.isStuck = false → s.stuckFrames = 0 →
      (updates cv p rf n s).isStuck = false ∧ (updates cv p rf n s).stuckFrames = 0 := by
  intro n
  induction' n with n ih generalizing rf
  · intro s h1 h2
    exact ⟨h1, h2⟩
  · intro s h1 h2
    have hstep := update_stuck_fields cv p (rf 0) s hsp h1
    have h1' : (update cv p (rf 0) s).isStuck = false := hstep.2
    have h2' : (update cv p (rf 0) s).stuckFrames = 0 := by
      rw [hstep.1, h2]
    simp only [updates]
    exact ih (fun k => rf (k + 1)) (update cv p (rf 0) s) h1' h2'

theorem update_escape_independent (cv : Canvas) (p : Props) (r : RandVals) (s : Ship)
    (hsp : 0 ≤ p.speed) (hstuck : s.isStuck = false) (e₁ e₂ : ℝ) :
    update cv p { r with escape := e₁ } s = update cv p { r with escape := e₂ } s := by
  have hmv := updateMovement_not_lt p s hsp
  simp only [update, if_neg hmv, hstuck, ite_self]
  simp

/-- Concrete instances used by the witnesses below. -/
def wCanvas : Canvas := ⟨1000, 1000⟩

/-- A ship at the canvas center heading right, with a clean initial state. -/
def wShip : Ship := ⟨500, 500, 0, 0, [], ⟨0, 0, 0, 0⟩, 0, 0, 0, false, none⟩

/-- A neutral batch of random draws. -/
noncomputable def wRand : RandVals := ⟨1/2, 1/2, 1/2, 1/2⟩

/-- A neutral random stream. -/
noncomputable def wRandSeq : ℕ → RandVals := fun _ => wRand

/-- C3: in `update` the stuck detector's displacement is measured between
`lastPosition` (captured just before integration) and the freshly integrated
position, so in exact real arithmetic it equals `speed`; hence for any
`speed > 0` the test `movement < 0.2·speed` never fires, `stuckFrames` never
increments (it decays by 2), `isStuck` never becomes true from a non-stuck
state (and stays false over any number of ticks from the initial state), and
the drastic stuck-escape perturbation is unreachable (the update result does
not depend on the escape random draw). -/
theorem C3_stuck_escape_unreachable (cv : Canvas) (p : Props) (r : RandVals)
    (s : Ship) (hsp : 0 < p.speed) (hstuck : s.isStuck = false) :
    updateMovement p s = p.speed ∧
    ¬ updateMovement p s < p.speed * 0.2 ∧
    (update cv p r s).stuckFrames = s.stuckFrames - 2 ∧
    (update cv p r s).isStuck = false ∧
    (∀ e₁ e₂ : ℝ,
      update cv p { r with escape := e₁ } s = update cv p { r with escape := e₂ } s) ∧
    (s.stuckFrames = 0 → ∀ (n : ℕ) (rf : ℕ → RandVals),
      (updates cv p rf n s).isStuck = false ∧ (updates cv p rf n s).stuckFrames = 0) :=
  ⟨by rw [updateMovement_eq, abs_of_nonneg hsp.le],
   updateMovement_not_lt p s hsp.le,
   (update_stuck_fields cv p r s hsp.le hstuck).1,
   (update_stuck_fields cv p r s hsp.le hstuck).2,
   fun e₁ e₂ => update_escape_independent cv p r s hsp.le hstuck e₁ e₂,
   fun hsf n rf => updates_stuck_invariant cv p rf hsp.le n s hstuck hsf⟩

theorem C3_stuck_escape_unreachable_witness :
    0 < (mkProps {}).speed ∧ wShip.isStuck = false ∧
      updateMovement (mkProps {}) wShip = (mkProps {}).speed := by
  have hsp : 0 < (mkProps {}).speed := by norm_num [mkProps]
  exact ⟨hsp, rfl,
    (C3_stuck_escape_unreachable wCanvas (mkProps {}) wRand wShip hsp rfl).1⟩

/-- C2: with `followEnabled` and a swarm of size `N ≥ 2`, `setSwarm` assigns
ship `i` the target `(i+1) mod N` when `followIndex` is null, and never
assigns a ship itself as target — when `followIndex` names the ship's own
index modulo `N`, the ship keeps no target at all. -/
theorem C2_setSwarm_follow_targets (p : Props) (N : ℕ) (hN : 2 ≤ N)
    (hfe : p.followEnabled = true) :
    (p.followIndex = none → setSwarm p N = some ((p.index + 1) % N)) ∧
    setSwarm p N ≠ some p.index := by
  have hguard : ¬(¬p.followEnabled ∨ N ≤ 1) := by
    push_neg
    exact ⟨by simp [hfe], by omega⟩
  constructor
  · intro hfi
    unfold setSwarm
    rw [if_neg hguard, hfi]
  · unfold setSwarm
    rw [if_neg hguard]
    cases hfi : p.followIndex with
    | some fi =>
      by_cases hne : fi % N ≠ p.index
      · simp only [if_pos hne]
        simpa using hne
      · simp only [if_neg hne]
        simp
    | none =>
      intro hcontra
      have heq : (p.index + 1) % N = p.index := Option.some.inj hcontra
      have hlt : (p.index + 1) % N < N := Nat.mod_lt _ (by omega)
      by_cases hi : p.index + 1 < N
      · rw [Nat.mod_eq_of_lt hi] at heq
        omega
      · by_cases hi2 : p.index + 1 = N
        · rw [hi2, Nat.mod_self] at heq
          omega
        · have : p.index < N := heq ▸ hlt
          omega

theorem C2_setSwarm_follow_targets_witness :
    (2 ≤ 3 ∧ (mkProps { index := some 1, swarmCount := some 3 }).followEnabled = true) ∧
      setSwarm (mkProps { index := some 1, swarmCount := some 3 }) 3 = some 2 ∧
      setSwarm (mkProps { index := some 1, swarmCount := some 3 }) 3 ≠ some 1 := by
  have hfe : (mkProps { index := some 1, swarmCount := some 3 }).followEnabled = true := by
    simp [mkProps]
  have h := C2_setSwarm_follow_targets
    (mkProps { index := some 1, swarmCount := some 3 }) 3 (by norm_num) hfe
  refine ⟨⟨by norm_num, hfe⟩, ?_, ?_⟩
  · have h1 := h.1 (by simp [mkProps])
    simpa [mkProps] using h1
  · have h2 := h.2
    simpa [mkProps] using h2

/-! ## C5: straight flight far from the edges -/

/-- C5 (amended): a ship that stays farther than `edgeDistance` from all four
borders, with no follow target and `curveChangeRate = 0`, keeps a constant
heading *provided its `curveValue` is zero*; `update` always adds the
persistent `curveValue` to the heading in the wander branch, so the heading
is constant exactly when that bias is zero (which `init` produces only when
`index / swarmCount = 1/2`). -/
theorem C5_straight_line_needs_zero_curveValue (cv : Canvas) (p : Props)
    (rf : ℕ → RandVals) (n : ℕ) (s : Ship)
    (hccr : p.curveChangeRate = 0)
    (hcv : s.curveValue = 0)
    (htgt : s.target = none)
    (hstuck : s.isStuck = false)
    (hd0 : 0 ≤ s.direction) (hd1 : s.direction < 2 * Real.pi)
    (hsp : 0 ≤ p.speed) (heD : 0 ≤ p.edgeDistance)
    (hwt : ∀ k, 0 ≤ (rf k).wanderTest)
    (hfar : ∀ k, k < n → FarFromEdges cv p (updates cv p rf k s)) :
    (updates cv p rf n s).direction = s.direction := by
  induction' n with n ih generalizing s rf
  · rfl
  · have hfar0 : FarFromEdges cv p s := hfar 0 (by omega)
    have heval := update_eval_noEdge cv p (rf 0) s hfar0 hsp heD hstuck htgt
    have hcvnew : (if (rf 0).wanderTest < p.curveChangeRate
        then ((rf 0).wanderSample - 0.5) * p.curveIntensity else s.curveValue) = 0 := by
      rw [hccr, if_neg (not_lt.mpr (hwt 0)), hcv]
    have hdir : (update cv p (rf 0) s).direction = s.direction := by
      rw [heval]
      simp only [hcvnew, add_zero]
      rw [jsRem_add_left _ _ hd0 Real.two_pi_pos, jsRem_eq_self _ _ hd0 hd1]
    have hcv' : (update cv p (rf 0) s).curveValue = 0 := by
      rw [heval]
      simpa using hcvnew
    have htgt' : (update cv p (rf 0) s).target = none := by
      rw [heval]
    have hstuck' : (update cv p (rf 0) s).isStuck = false := by
      rw [heval]
    have hda : 0 ≤ (update cv p (rf 0) s).direction := by
      rw [hdir]; exact hd0
    have hdb : (update cv p (rf 0) s).direction < 2 * Real.pi := by
      rw [hdir]; exact hd1
    have harg1 : ∀ k, 0 ≤ ((fun k => rf (k + 1)) k).wanderTest := fun k => hwt (k + 1)
    have harg2 : ∀ k, k < n →
        FarFromEdges cv p (updates cv p (fun k => rf (k + 1)) k (update cv p (rf 0) s)) := by
      intro k hk
      have h := hfar (k + 1) (by omega)
      simpa only [updates] using h
    simp only [updates]
    rw [ih (fun k => rf (k + 1)) (update cv p (rf 0) s) hcv' htgt' hstuck'
      hda hdb harg1 harg2, hdir]

/-- Default props with `curveChangeRate = 0` (as in the C5 scenario). -/
noncomputable def p5 : Props := mkProps { curveChangeRate := some 0 }

theorem C5_straight_line_needs_zero_curveValue_witness :
    (p5.curveChangeRate = 0 ∧ wShip.curveValue = 0 ∧ wShip.target = none) ∧
      (updates wCanvas p5 wRandSeq 1 wShip).direction = wShip.direction := by
  have hccr : p5.curveChangeRate = 0 := by
    simp [p5, mkProps]
  have hfar : FarFromEdges wCanvas p5 wShip := by
    refine ⟨?_, ?_, ?_, ?_⟩ <;>
      simp [p5, mkProps, FarFromEdges, wShip, wCanvas] <;> norm_num
  refine ⟨⟨hccr, rfl, rfl⟩, ?_⟩
  exact C5_straight_line_needs_zero_curveValue wCanvas p5 wRandSeq 1 wShip
    hccr rfl rfl rfl le_rfl (by positivity) (by norm_num [p5, mkProps])
    (by norm_num [p5, mkProps])
    (fun k => by norm_num [wRandSeq, wRand])
    (fun k hk => by
      interval_cases k
      exact hfar)

/-- The C5 scenario ship as `init` actually produces it: `curveValue` is the
index-dependent bias `(0/1 - 0.5) * 0.02 = -1/100`, not zero. -/
noncomputable def cexShip5 : Ship :=
  ⟨500, 500, 0, -(1 / 100), [], ⟨0, 0, 0, 0⟩, 0, 0, 0, false, none⟩

/-- C5 counterexample: a ship far from all edges, with no follow target and
`curveChangeRate = 0`, whose `curveValue` is exactly what `init` gives the
default configuration (index 0, swarmCount 1), changes heading on the very
next tick: the wander branch adds the persistent `curveValue` regardless of
`curveChangeRate`. -/
theorem C5_straight_line_counterexample :
    p5.curveChangeRate = 0 ∧ cexShip5.target = none ∧
      FarFromEdges wCanvas p5 cexShip5 ∧
      cexShip5.curveValue = initCurveValue p5 ∧
      (update wCanvas p5 wRand cexShip5).direction ≠ cexShip5.direction := by
  have hccr : p5.curveChangeRate = 0 := by
    simp [p5, mkProps]
  have hfar : FarFromEdges wCanvas p5 cexShip5 := by
    refine ⟨?_, ?_, ?_, ?_⟩ <;>
      simp [p5, mkProps, FarFromEdges, cexShip5, wCanvas] <;> norm_num
  have hinit : cexShip5.curveValue = initCurveValue p5 := by
    simp [cexShip5, initCurveValue, p5, mkProps]
    norm_num
  refine ⟨hccr, rfl, hfar, hinit, ?_⟩
  have heval := update_eval_noEdge wCanvas p5 wRand cexShip5 hfar
    (by norm_num [p5, mkProps]) (by norm_num [p5, mkProps]) rfl rfl
  have hcvnew : (if wRand.wanderTest < p5.curveChangeRate
      then (wRand.wanderSample - 0.5) * p5.curveIntensity
      else cexShip5.curveValue) = -(1 / 100) := by
    rw [hccr, if_neg (by norm_num [wRand])]
    rfl
  have hdir : (update wCanvas p5 wRand cexShip5).direction
      = 2 * Real.pi - 1 / 100 := by
    rw [heval]
    simp only [hcvnew]
    have hval : (cexShip5.direction + -(1 / 100) + 2 * Real.pi)
        = 2 * Real.pi - 1 / 100 := by
      simp [cexShip5]
      ring
    rw [hval, jsRem_eq_self]
    · have := Real.pi_gt_three
      linarith
    · have := Real.pi_gt_three
      linarith
  rw [hdir]
  have := Real.pi_gt_three
  simp only [cexShip5]
  intro hcontra
  norm_num at hcontra
  linarith

/-! ## C4: order of operations inside one tick -/

/-- C4 (amended): within one tick `update` first integrates the position with
the heading *from the previous tick* (`x += cos(heading)·speed` before any
steering), pushes the sample `(x, y, previous heading)` onto the front of the
trail, and only then updates the heading; the final position is the clamp of
the pre-steering integration, so it is built from the *old* heading, and the
trail head records the old heading. -/
theorem C4_integrate_before_steering (cv : Canvas) (p : Props) (r : RandVals)
    (s : Ship) (hTL : 1 ≤ p.tailLength) :
    (update cv p r s).positions.head? =
      some ⟨s.x + Real.cos s.direction * p.speed,
        s.y + Real.sin s.direction * p.speed, s.direction⟩ ∧
    (update cv p r s).x =
      (if (if s.x + Real.cos s.direction * p.speed < 0 then 0
          else s.x + Real.cos s.direction * p.speed) > cv.width then cv.width
        else (if s.x + Real.cos s.direction * p.speed < 0 then 0
          else s.x + Real.cos s.direction * p.speed)) ∧
    (update cv p r s).y =
      (if (if s.y + Real.sin s.direction * p.speed < 0 then 0
          else s.y + Real.sin s.direction * p.speed) > cv.height then cv.height
        else (if s.y + Real.sin s.direction * p.speed < 0 then 0
          else s.y + Real.sin s.direction * p.speed)) := by
  refine ⟨?_, ?_, ?_⟩
  · simp only [update]
    split_ifs with h
    · have hne : s.positions ≠ [] := by
        intro hnil
        rw [hnil] at h
        simp at h
        omega
      rw [List.dropLast_cons_of_ne_nil hne]
      simp
    · simp
  · simp only [update]
  · simp only [update]

theorem C4_integrate_before_steering_witness :
    1 ≤ (mkProps {}).tailLength ∧
      (update wCanvas (mkProps {}) wRand wShip).positions.head? =
        some ⟨503, 500, 0⟩ := by
  have hTL : 1 ≤ (mkProps {}).tailLength := by
    norm_num [mkProps]
  refine ⟨hTL, ?_⟩
  have h := (C4_integrate_before_steering wCanvas (mkProps {}) wRand wShip hTL).1
  rw [h]
  norm_num [wShip, mkProps]

/-- Props with an exaggerated `edgeCurveIntensity` of 4, used to exhibit the
effects of the edge branch within very few ticks. -/
noncomputable def pSteep : Props := mkProps { edgeCurveIntensity := some 4 }

/-- A ship at `x = edgeDistance/2` heading straight at the left border. -/
noncomputable def cexShip4 : Ship :=
  ⟨50, 500, Real.pi, 0, [], ⟨0, 0, 0, 0⟩, 0, 0, 0, false, none⟩

theorem cexShip4_x1 :
    cexShip4.x + Real.cos cexShip4.direction * pSteep.speed = 47 := by
  simp [cexShip4, pSteep, mkProps, Real.cos_pi]
  norm_num

theorem cexShip4_y1 :
    cexShip4.y + Real.sin cexShip4.direction * pSteep.speed = 500 := by
  simp [cexShip4, pSteep, mkProps, Real.sin_pi]

theorem cexShip4_eval :
    update wCanvas pSteep wRand cexShip4 =
      { x := 47, y := 500,
        direction := Real.pi - 53 / 25,
        curveValue := cexShip4.curveValue,
        positions := [⟨47, 500, Real.pi⟩],
        edgeProximityFrames := ⟨1, 0, 0, 0⟩,
        lastX := 50, lastY := 500,
        stuckFrames := 0, isStuck := false,
        target := none } := by
  have hpi3 := Real.pi_gt_three
  have hpi4 := Real.pi_lt_d2
  have heval := update_eval_leftOnly wCanvas pSteep wRand cexShip4
    (by rw [cexShip4_x1]; norm_num [pSteep, mkProps])
    (by rw [cexShip4_x1]; norm_num [pSteep, mkProps, wCanvas])
    (by rw [cexShip4_y1]; norm_num [pSteep, mkProps])
    (by rw [cexShip4_y1]; norm_num [pSteep, mkProps, wCanvas])
    (by rw [cexShip4_x1]; norm_num)
    (by norm_num [pSteep, mkProps]) (by norm_num [pSteep, mkProps])
    rfl
    (by norm_num [cexShip4, pSteep, mkProps])
  rw [heval]
  have hsign : jsSign (wrapToPi (0 - cexShip4.direction)) = -1 := by
    have hw : wrapToPi (0 - cexShip4.direction) = -Real.pi := by
      rw [show (0 : ℝ) - cexShip4.direction = -Real.pi by simp [cexShip4]]
      exact wrapToPi_eq_self _ le_rfl (by linarith)
    rw [hw]
    exact jsSign_neg_of_neg _ (by linarith)
  have hkick : pSteep.edgeCurveIntensity *
      (1 - (cexShip4.x + Real.cos cexShip4.direction * pSteep.speed) /
        pSteep.edgeDistance) * jsSign (wrapToPi (0 - cexShip4.direction))
      = -(53 / 25) := by
    rw [cexShip4_x1, hsign]
    norm_num [pSteep, mkProps]
  have hdir : jsRem (cexShip4.direction + pSteep.edgeCurveIntensity *
      (1 - (cexShip4.x + Real.cos cexShip4.direction * pSteep.speed) /
        pSteep.edgeDistance) * jsSign (wrapToPi (0 - cexShip4.direction)) +
      2 * Real.pi) (2 * Real.pi) = Real.pi - 53 / 25 := by
    rw [hkick]
    have harg : cexShip4.direction + -(53 / 25) + 2 * Real.pi
        = (Real.pi - 53 / 25) + 2 * Real.pi := by
      simp [cexShip4]
      ring
    rw [harg, jsRem_add_left _ _ (by linarith) Real.two_pi_pos,
      jsRem_eq_self _ _ (by linarith) (by linarith)]
  rw [hdir]
  simp only [cexShip4_x1, cexShip4_y1]
  simp [cexShip4, pSteep, mkProps]

/-- C4 counterexample: at a concrete state near the left border, the position
after one tick is *not* `x + cos(new heading)·speed`: the integration at
lines 112-113 ran before the edge branch changed the heading, so the claimed
"integrate with the newly updated heading" order is false on the code. -/
theorem C4_integrate_before_steering_counterexample :
    (update wCanvas pSteep wRand cexShip4).x ≠
      cexShip4.x +
        Real.cos ((update wCanvas pSteep wRand cexShip4).direction) * pSteep.speed := by
  rw [cexShip4_eval]
  have hcos : Real.cos (Real.pi - 53 / 25) = -Real.cos (53 / 25) :=
    Real.cos_pi_sub _
  have hlt : Real.cos (53 / 25) < 1 := by
    have h := Real.cos_lt_cos_of_nonneg_of_le_pi (le_refl (0:ℝ))
      (by linarith [Real.pi_gt_three]) (by norm_num : (0:ℝ) < 53 / 25)
    rw [Real.cos_zero] at h
    exact h
  simp only [cexShip4, hcos]
  have hsp : pSteep.speed = 3 := by
    norm_num [pSteep, mkProps]
  rw [hsp]
  intro hcontra
  norm_num at hcontra
  linarith

/-! ## C7: turning away from the left edge -/

theorem cos_jsRem_two_pi (a : ℝ) :
    Real.cos (jsRem a (2 * Real.pi)) = Real.cos a := by
  unfold jsRem
  have h : a - 2 * Real.pi * (jsTrunc (a / (2 * Real.pi)) : ℝ)
      = a - (jsTrunc (a / (2 * Real.pi)) : ℝ) * (2 * Real.pi) := by
    ring
  rw [h, Real.cos_sub_int_mul_two_pi]

theorem jsRem_norm_small (d : ℝ) (h0 : 0 ≤ d) (h1 : d < 2 * Real.pi) :
    jsRem (d + 2 * Real.pi) (2 * Real.pi) = d := by
  rw [jsRem_add_left _ _ h0 Real.two_pi_pos, jsRem_eq_self _ _ h0 h1]

/-- C7 (amended): on any tick in which only the left-edge branch fires, with
heading `d ∈ (0, π]` and effective curve strength `c ∈ (0, 2d)`, the tick
strictly increases `cos(heading)` — the ship turns toward increasing `x`.
(The first tick of the claim's scenario, heading π at `x = edgeDistance/2`,
is the instance `d = π`; once the strength exceeds `2d` the heading
overshoots 0 and the monotonicity breaks, as the counterexample shows.) -/
theorem C7_left_edge_turn (cv : Canvas) (p : Props) (r : RandVals) (s : Ship)
    (hL : s.x + Real.cos s.direction * p.speed < p.edgeDistance)
    (hR : ¬(s.x + Real.cos s.direction * p.speed > cv.width - p.edgeDistance))
    (hT : ¬(s.y + Real.sin s.direction * p.speed < p.edgeDistance))
    (hB : ¬(s.y + Real.sin s.direction * p.speed > cv.height - p.edgeDistance))
    (hx0 : 0 ≤ s.x + Real.cos s.direction * p.speed)
    (hsp : 0 ≤ p.speed) (heD : 0 ≤ p.edgeDistance)
    (hstuck : s.isStuck = false)
    (hframes : ¬(s.edgeProximityFrames.left + 1 > p.stuckThreshold))
    (hd0 : 0 < s.direction) (hdpi : s.direction ≤ Real.pi)
    (hc0 : 0 < p.edgeCurveIntensity *
      (1 - (s.x + Real.cos s.direction * p.speed) / p.edgeDistance))
    (hc2 : p.edgeCurveIntensity *
      (1 - (s.x + Real.cos s.direction * p.speed) / p.edgeDistance)
      < 2 * s.direction) :
    Real.cos s.direction < Real.cos ((update cv p r s).direction) := by
  have heval := update_eval_leftOnly cv p r s hL hR hT hB hx0 hsp heD hstuck hframes
  have hpi := Real.pi_pos
  have hsign : jsSign (wrapToPi (0 - s.direction)) = -1 := by
    have hw : wrapToPi (0 - s.direction) = -s.direction := by
      rw [zero_sub]
      exact wrapToPi_eq_self _ (by linarith) (by linarith)
    rw [hw]
    exact jsSign_neg_of_neg _ (by linarith)
  rw [heval]
  simp only [hsign]
  set c := p.edgeCurveIntensity *
    (1 - (s.x + Real.cos s.direction * p.speed) / p.edgeDistance) with hc
  have harg : s.direction + c * -1 + 2 * Real.pi = (s.direction - c) + 2 * Real.pi := by
    ring
  rw [harg]
  have hrem : Real.cos (jsRem ((s.direction - c) + 2 * Real.pi) (2 * Real.pi))
      = Real.cos (s.direction - c) := by
    rw [cos_jsRem_two_pi, Real.cos_add_two_pi]
  rw [hrem]
  have habs : |s.direction - c| < s.direction := by
    rw [abs_lt]
    constructor <;> linarith
  calc Real.cos s.direction < Real.cos |s.direction - c| := by
        exact Real.cos_lt_cos_of_nonneg_of_le_pi (abs_nonneg _) hdpi habs
    _ = Real.cos (s.direction - c) := Real.cos_abs _

/-- Props with `speed = 0` and `edgeCurveIntensity = 4`: the ship stays at
`x = edgeDistance/2` while the left-edge branch turns it by 2 radians per
tick. -/
noncomputable def pSteep0 : Props := mkProps { edgeCurveIntensity := some 4, speed := some 0 }

/-- The C7 scenario start: `x = edgeDistance/2`, heading π (straight at the
left border). -/
noncomputable def ship70 : Ship :=
  ⟨50, 500, Real.pi, 0, [], ⟨0, 0, 0, 0⟩, 0, 0, 0, false, none⟩

/-- State after one tick of the C7 scenario. -/
noncomputable def ship71 : Ship :=
  ⟨50, 500, Real.pi - 2, 0, [⟨50, 500, Real.pi⟩], ⟨1, 0, 0, 0⟩, 50, 500, 0, false, none⟩

/-- State after two ticks of the C7 scenario. -/
noncomputable def ship72 : Ship :=
  ⟨50, 500, 3 * Real.pi - 4, 0, [⟨50, 500, Real.pi - 2⟩, ⟨50, 500, Real.pi⟩],
    ⟨2, 0, 0, 0⟩, 50, 500, 0, false, none⟩

/-- State after three ticks of the C7 scenario. -/
noncomputable def ship73 : Ship :=
  ⟨50, 500, Real.pi - 2, 0,
    [⟨50, 500, 3 * Real.pi - 4⟩, ⟨50, 500, Real.pi - 2⟩, ⟨50, 500, Real.pi⟩],
    ⟨3, 0, 0, 0⟩, 50, 500, 0, false, none⟩

theorem step70_1 : update wCanvas pSteep0 wRand ship70 = ship71 := by
  have hpi3 := Real.pi_gt_three
  have hpi4 := Real.pi_lt_d2
  have hx1 : ship70.x + Real.cos ship70.direction * pSteep0.speed = 50 := by
    simp [ship70, pSteep0, mkProps]
  have hy1 : ship70.y + Real.sin ship70.direction * pSteep0.speed = 500 := by
    simp [ship70, pSteep0, mkProps]
  have heval := update_eval_leftOnly wCanvas pSteep0 wRand ship70
    (by rw [hx1]; norm_num [pSteep0, mkProps])
    (by rw [hx1]; norm_num [pSteep0, mkProps, wCanvas])
    (by rw [hy1]; norm_num [pSteep0, mkProps])
    (by rw [hy1]; norm_num [pSteep0, mkProps, wCanvas])
    (by rw [hx1]; norm_num)
    (by norm_num [pSteep0, mkProps]) (by norm_num [pSteep0, mkProps])
    rfl
    (by norm_num [ship70, pSteep0, mkProps])
  rw [heval]
  have hsign : jsSign (wrapToPi (0 - ship70.direction)) = -1 := by
    have hw : wrapToPi (0 - ship70.direction) = -Real.pi := by
      rw [show (0:ℝ) - ship70.direction = -Real.pi by simp [ship70]]
      exact wrapToPi_eq_self _ le_rfl (by linarith)
    rw [hw]
    exact jsSign_neg_of_neg _ (by linarith)
  have hkick : pSteep0.edgeCurveIntensity *
      (1 - (ship70.x + Real.cos ship70.direction * pSteep0.speed) /
        pSteep0.edgeDistance) * jsSign (wrapToPi (0 - ship70.direction)) = -2 := by
    rw [hx1, hsign]
    norm_num [pSteep0, mkProps]
  have hdir : jsRem (ship70.direction + pSteep0.edgeCurveIntensity *
      (1 - (ship70.x + Real.cos ship70.direction * pSteep0.speed) /
        pSteep0.edgeDistance) * jsSign (wrapToPi (0 - ship70.direction)) +
      2 * Real.pi) (2 * Real.pi) = Real.pi - 2 := by
    rw [hkick, show ship70.direction + -2 + 2 * Real.pi
        = (Real.pi - 2) + 2 * Real.pi by simp only [ship70]; ring]
    exact jsRem_norm_small _ (by linarith) (by linarith)
  rw [hdir]
  simp only [hx1, hy1]
  simp [ship70, ship71, pSteep0, mkProps]

theorem step70_2 : update wCanvas pSteep0 wRand ship71 = ship72 := by
  have hpi3 := Real.pi_gt_three
  have hpi4 := Real.pi_lt_d2
  have hx1 : ship71.x + Real.cos ship71.direction * pSteep0.speed = 50 := by
    simp [ship71, pSteep0, mkProps]
  have hy1 : ship71.y + Real.sin ship71.direction * pSteep0.speed = 500 := by
    simp [ship71, pSteep0, mkProps]
  have heval := update_eval_leftOnly wCanvas pSteep0 wRand ship71
    (by rw [hx1]; norm_num [pSteep0, mkProps])
    (by rw [hx1]; norm_num [pSteep0, mkProps, wCanvas])
    (by rw [hy1]; norm_num [pSteep0, mkProps])
    (by rw [hy1]; norm_num [pSteep0, mkProps, wCanvas])
    (by rw [hx1]; norm_num)
    (by norm_num [pSteep0, mkProps]) (by norm_num [pSteep0, mkProps])
    rfl
    (by norm_num [ship71, pSteep0, mkProps])
  rw [heval]
  have hsign : jsSign (wrapToPi (0 - ship71.direction)) = -1 := by
    have hw : wrapToPi (0 - ship71.direction) = 2 - Real.pi := by
      rw [show (0:ℝ) - ship71.direction = 2 - Real.pi by simp only [ship71]; ring]
      exact wrapToPi_eq_self _ (by linarith) (by linarith)
    rw [hw]
    exact jsSign_neg_of_neg _ (by linarith)
  have hkick : pSteep0.edgeCurveIntensity *
      (1 - (ship71.x + Real.cos ship71.direction * pSteep0.speed) /
        pSteep0.edgeDistance) * jsSign (wrapToPi (0 - ship71.direction)) = -2 := by
    rw [hx1, hsign]
    norm_num [pSteep0, mkProps]
  have hdir : jsRem (ship71.direction + pSteep0.edgeCurveIntensity *
      (1 - (ship71.x + Real.cos ship71.direction * pSteep0.speed) /
        pSteep0.edgeDistance) * jsSign (wrapToPi (0 - ship71.direction)) +
      2 * Real.pi) (2 * Real.pi) = 3 * Real.pi - 4 := by
    rw [hkick, show ship71.direction + -2 + 2 * Real.pi
        = 3 * Real.pi - 4 by simp only [ship71]; ring]
    exact jsRem_eq_self _ _ (by linarith) (by linarith)
  rw [hdir]
  simp only [hx1, hy1]
  simp [ship71, ship72, pSteep0, mkProps]

theorem step70_3 : update wCanvas pSteep0 wRand ship72 = ship73 := by
  have hpi3 := Real.pi_gt_three
  have hpi4 := Real.pi_lt_d2
  have hx1 : ship72.x + Real.cos ship72.direction * pSteep0.speed = 50 := by
    simp [ship72, pSteep0, mkProps]
  have hy1 : ship72.y + Real.sin ship72.direction * pSteep0.speed = 500 := by
    simp [ship72, pSteep0, mkProps]
  have heval := update_eval_leftOnly wCanvas pSteep0 wRand ship72
    (by rw [hx1]; norm_num [pSteep0, mkProps])
    (by rw [hx1]; norm_num [pSteep0, mkProps, wCanvas])
    (by rw [hy1]; norm_num [pSteep0, mkProps])
    (by rw [hy1]; norm_num [pSteep0, mkProps, wCanvas])
    (by rw [hx1]; norm_num)
    (by norm_num [pSteep0, mkProps]) (by norm_num [pSteep0, mkProps])
    rfl
    (by norm_num [ship72, pSteep0, mkProps])
  rw [heval]
  have hsign : jsSign (wrapToPi (0 - ship72.direction)) = 1 := by
    have hw : wrapToPi (0 - ship72.direction) = 4 - Real.pi := by
      rw [show (0:ℝ) - ship72.direction = 4 - 3 * Real.pi by simp only [ship72]; ring]
      unfold wrapToPi
      rw [if_neg (by linarith), if_pos (by linarith)]
      have hceil : ⌈(-Real.pi - (4 - 3 * Real.pi)) / (2 * Real.pi)⌉ = 1 := by
        have hval : (-Real.pi - (4 - 3 * Real.pi)) / (2 * Real.pi)
            = (2 * Real.pi - 4) / (2 * Real.pi) := by
          ring_nf
        rw [hval, Int.ceil_eq_iff]
        constructor
        · push_cast
          have hp : (0:ℝ) < (2 * Real.pi - 4) / (2 * Real.pi) :=
            div_pos (by linarith) (by linarith)
          linarith
        · push_cast
          rw [div_le_one (by linarith)]
          linarith
      rw [hceil]
      push_cast
      ring
    rw [hw]
    exact jsSign_pos_of_pos _ (by linarith)
  have hkick : pSteep0.edgeCurveIntensity *
      (1 - (ship72.x + Real.cos ship72.direction * pSteep0.speed) /
        pSteep0.edgeDistance) * jsSign (wrapToPi (0 - ship72.direction)) = 2 := by
    rw [hx1, hsign]
    norm_num [pSteep0, mkProps]
  have hdir : jsRem (ship72.direction + pSteep0.edgeCurveIntensity *
      (1 - (ship72.x + Real.cos ship72.direction * pSteep0.speed) /
        pSteep0.edgeDistance) * jsSign (wrapToPi (0 - ship72.direction)) +
      2 * Real.pi) (2 * Real.pi) = Real.pi - 2 := by
    rw [hkick, show ship72.direction + 2 + 2 * Real.pi
        = ((Real.pi - 2) + 2 * Real.pi) + 2 * Real.pi by simp only [ship72]; ring]
    rw [jsRem_add_left _ _ (by linarith) Real.two_pi_pos]
    exact jsRem_norm_small _ (by linarith) (by linarith)
  rw [hdir]
  simp only [hx1, hy1]
  simp [ship72, ship73, pSteep0, mkProps]

/-- C7 counterexample: starting exactly as the claim prescribes
(`x = edgeDistance/2`, heading π) with `edgeCurveIntensity = 4` and
`speed = 0`, the first tick does turn the ship away from the left border
(cos increases), but on the third tick — with the ship still inside
`edgeDistance` — `cos(heading)` strictly *decreases*: the correction
overshoots heading 0 and oscillates, so the turn is not monotone until the
ship leaves the edge zone. -/
theorem C7_left_edge_turn_counterexample :
    ship70.x = pSteep0.edgeDistance / 2 ∧ ship70.direction = Real.pi ∧
    (updates wCanvas pSteep0 wRandSeq 3 ship70).x < pSteep0.edgeDistance ∧
    Real.cos ship70.direction <
      Real.cos ((updates wCanvas pSteep0 wRandSeq 1 ship70).direction) ∧
    Real.cos ((updates wCanvas pSteep0 wRandSeq 3 ship70).direction) <
      Real.cos ((updates wCanvas pSteep0 wRandSeq 2 ship70).direction) := by
  have hpi3 := Real.pi_gt_three
  have hpi4 := Real.pi_lt_d2
  have h1 : updates wCanvas pSteep0 wRandSeq 1 ship70 = ship71 := by
    simp only [updates, wRandSeq]
    exact step70_1
  have h2 : updates wCanvas pSteep0 wRandSeq 2 ship70 = ship72 := by
    simp only [updates, wRandSeq]
    rw [step70_1, step70_2]
  have h3 : updates wCanvas pSteep0 wRandSeq 3 ship70 = ship73 := by
    simp only [updates, wRandSeq]
    rw [step70_1, step70_2, step70_3]
  refine ⟨by norm_num [ship70, pSteep0, mkProps], rfl, ?_, ?_, ?_⟩
  · rw [h3]
    norm_num [ship73, pSteep0, mkProps]
  · rw [h1]
    have hc1 : Real.cos ship71.direction = -Real.cos 2 := by
      simp only [ship71]
      exact Real.cos_pi_sub 2
    have hcos2 : Real.cos 2 < 1 := by
      have h := Real.cos_lt_cos_of_nonneg_of_le_pi (le_refl (0:ℝ))
        (by linarith) (by norm_num : (0:ℝ) < 2)
      rw [Real.cos_zero] at h
      exact h
    simp only [ship70, hc1, Real.cos_pi]
    linarith
  · rw [h2, h3]
    have hc3 : Real.cos ship73.direction = -Real.cos 2 := by
      simp only [ship73]
      exact Real.cos_pi_sub 2
    have hc2 : Real.cos ship72.direction = -Real.cos 4 := by
      simp only [ship72]
      rw [show 3 * Real.pi - 4 = (Real.pi - 4) + 2 * Real.pi by ring,
        Real.cos_add_two_pi]
      exact Real.cos_pi_sub 4
    have hkey : Real.cos 4 < Real.cos 2 := by
      have h := Real.cos_lt_cos_of_nonneg_of_le_pi (by norm_num : (0:ℝ) ≤ 2)
        (by linarith : 2 * Real.pi - 4 ≤ Real.pi) (by linarith : (2:ℝ) < 2 * Real.pi - 4)
      rw [Real.cos_two_pi_sub] at h
      exact h
    rw [hc2, hc3]
    linarith

theorem C7_left_edge_turn_witness :
    (ship70.x + Real.cos ship70.direction * pSteep0.speed < pSteep0.edgeDistance ∧
      0 < ship70.direction ∧ ship70.direction ≤ Real.pi) ∧
    Real.cos ship70.direction < Real.cos ((update wCanvas pSteep0 wRand ship70).direction) := by
  have hpi3 := Real.pi_gt_three
  have hx1 : ship70.x + Real.cos ship70.direction * pSteep0.speed = 50 := by
    simp [ship70, pSteep0, mkProps]
  have hy1 : ship70.y + Real.sin ship70.direction * pSteep0.speed = 500 := by
    simp [ship70, pSteep0, mkProps]
  refine ⟨⟨by rw [hx1]; norm_num [pSteep0, mkProps], by simp [ship70]; linarith,
    by simp [ship70]⟩, ?_⟩
  exact C7_left_edge_turn wCanvas pSteep0 wRand ship70
    (by rw [hx1]; norm_num [pSteep0, mkProps])
    (by rw [hx1]; norm_num [pSteep0, mkProps, wCanvas])
    (by rw [hy1]; norm_num [pSteep0, mkProps])
    (by rw [hy1]; norm_num [pSteep0, mkProps, wCanvas])
    (by rw [hx1]; norm_num)
    (by norm_num [pSteep0, mkProps]) (by norm_num [pSteep0, mkProps])
    rfl
    (by norm_num [ship70, pSteep0, mkProps])
    (by simp [ship70]; linarith)
    (by simp [ship70])
    (by rw [hx1]; norm_num [pSteep0, mkProps])
    (by rw [hx1]; simp only [ship70]; norm_num [pSteep0, mkProps]; linarith)

/-! ## C1: bounds on the per-tick heading change -/

theorem kick_core_bound (p : Props) (v z : ℝ) (b : Prop) [Decidable b]
    (heCI : 0 ≤ p.edgeCurveIntensity) (heD : 0 < p.edgeDistance)
    (hmult : 0 ≤ p.stuckEscapeMultiplier) (hsp : 0 ≤ p.speed)
    (hv : -p.speed ≤ v) (hlt : v < p.edgeDistance) (hz : |z| ≤ 1) :
    |(if b then p.edgeCurveIntensity * (1 - v / p.edgeDistance) * p.stuckEscapeMultiplier
        else p.edgeCurveIntensity * (1 - v / p.edgeDistance)) * z| ≤
      p.edgeCurveIntensity * (1 + p.speed / p.edgeDistance) *
        max 1 p.stuckEscapeMultiplier := by
  have hdf1 : v / p.edgeDistance < 1 := (div_lt_one heD).mpr hlt
  have hdf2 : -(p.speed / p.edgeDistance) ≤ v / p.edgeDistance := by
    rw [← neg_div]
    exact (div_le_div_iff_of_pos_right heD).mpr hv
  have hc0a : 0 ≤ p.edgeCurveIntensity * (1 - v / p.edgeDistance) :=
    mul_nonneg heCI (by linarith)
  have hc0b : p.edgeCurveIntensity * (1 - v / p.edgeDistance) ≤
      p.edgeCurveIntensity * (1 + p.speed / p.edgeDistance) :=
    mul_le_mul_of_nonneg_left (by linarith) heCI
  have hA : 0 ≤ p.edgeCurveIntensity * (1 + p.speed / p.edgeDistance) := by
    have : (0:ℝ) ≤ p.speed / p.edgeDistance := div_nonneg hsp heD.le
    exact mul_nonneg heCI (by linarith)
  split_ifs with hb
  · rw [abs_mul, abs_of_nonneg (mul_nonneg hc0a hmult)]
    have h1 : p.edgeCurveIntensity * (1 - v / p.edgeDistance) *
        p.stuckEscapeMultiplier * |z| ≤
        p.edgeCurveIntensity * (1 - v / p.edgeDistance) * p.stuckEscapeMultiplier :=
      mul_le_of_le_one_right (mul_nonneg hc0a hmult) hz
    have h2 : p.edgeCurveIntensity * (1 - v / p.edgeDistance) *
        p.stuckEscapeMultiplier ≤
        p.edgeCurveIntensity * (1 + p.speed / p.edgeDistance) *
          p.stuckEscapeMultiplier :=
      mul_le_mul_of_nonneg_right hc0b hmult
    have h3 : p.edgeCurveIntensity * (1 + p.speed / p.edgeDistance) *
        p.stuckEscapeMultiplier ≤
        p.edgeCurveIntensity * (1 + p.speed / p.edgeDistance) *
          max 1 p.stuckEscapeMultiplier :=
      mul_le_mul_of_nonneg_left (le_max_right 1 _) hA
    linarith
  · rw [abs_mul, abs_of_nonneg hc0a]
    have h1 : p.edgeCurveIntensity * (1 - v / p.edgeDistance) * |z| ≤
        p.edgeCurveIntensity * (1 - v / p.edgeDistance) :=
      mul_le_of_le_one_right hc0a hz
    have h3 : p.edgeCurveIntensity * (1 + p.speed / p.edgeDistance) ≤
        p.edgeCurveIntensity * (1 + p.speed / p.edgeDistance) *
          max 1 p.stuckEscapeMultiplier :=
      le_mul_of_one_le_right hA (le_max_left 1 _)
    linarith


theorem steerLeft_d_bound (p : Props) (x1 : ℝ) (stk : Bool) (st : SteerSt)
    (heCI : 0 ≤ p.edgeCurveIntensity) (heD : 0 < p.edgeDistance)
    (hmult : 0 ≤ p.stuckEscapeMultiplier) (hsp : 0 ≤ p.speed)
    (hv : -p.speed ≤ x1) :
    |(steerLeft p x1 stk st).d - st.d| ≤
      p.edgeCurveIntensity * (1 + p.speed / p.edgeDistance) *
        max 1 p.stuckEscapeMultiplier := by
  have h0 : (0:ℝ) ≤ p.speed / p.edgeDistance := div_nonneg hsp heD.le
  have hA : 0 ≤ p.edgeCurveIntensity * (1 + p.speed / p.edgeDistance) *
      max 1 p.stuckEscapeMultiplier :=
    mul_nonneg (mul_nonneg heCI (by linarith))
      (le_trans zero_le_one (le_max_left _ _))
  by_cases hact : x1 < p.edgeDistance
  · simp only [steerLeft, if_pos hact]
    simp only [add_sub_cancel_left]
    exact kick_core_bound p x1 (jsSign (wrapToPi (0 - st.d)))
      (stk = true ∨ st.epf.left + 1 > p.stuckThreshold)
      heCI heD hmult hsp hv hact (abs_jsSign_le _)
  · simp only [steerLeft, if_neg hact]
    simpa using hA

theorem steerRight_d_bound (cv : Canvas) (p : Props) (x1 : ℝ) (stk : Bool)
    (st : SteerSt)
    (heCI : 0 ≤ p.edgeCurveIntensity) (heD : 0 < p.edgeDistance)
    (hmult : 0 ≤ p.stuckEscapeMultiplier) (hsp : 0 ≤ p.speed)
    (hv : -p.speed ≤ cv.width - x1) :
    |(steerRight cv p x1 stk st).d - st.d| ≤
      p.edgeCurveIntensity * (1 + p.speed / p.edgeDistance) *
        max 1 p.stuckEscapeMultiplier := by
  have h0 : (0:ℝ) ≤ p.speed / p.edgeDistance := div_nonneg hsp heD.le
  have hA : 0 ≤ p.edgeCurveIntensity * (1 + p.speed / p.edgeDistance) *
      max 1 p.stuckEscapeMultiplier :=
    mul_nonneg (mul_nonneg heCI (by linarith))
      (le_trans zero_le_one (le_max_left _ _))
  by_cases hact : x1 > cv.width - p.edgeDistance
  · simp only [steerRight, if_pos hact]
    simp only [add_sub_cancel_left]
    exact kick_core_bound p (cv.width - x1) (jsSign (wrapToPi (Real.pi - st.d)))
      (stk = true ∨ st.epf.right + 1 > p.stuckThreshold)
      heCI heD hmult hsp hv (by linarith) (abs_jsSign_le _)
  · simp only [steerRight, if_neg hact]
    simpa using hA

theorem steerTop_d_bound (p : Props) (y1 : ℝ) (stk : Bool) (st : SteerSt)
    (heCI : 0 ≤ p.edgeCurveIntensity) (heD : 0 < p.edgeDistance)
    (hmult : 0 ≤ p.stuckEscapeMultiplier) (hsp : 0 ≤ p.speed)
    (hv : -p.speed ≤ y1) :
    |(steerTop p y1 stk st).d - st.d| ≤
      p.edgeCurveIntensity * (1 + p.speed / p.edgeDistance) *
        max 1 p.stuckEscapeMultiplier := by
  have h0 : (0:ℝ) ≤ p.speed / p.edgeDistance := div_nonneg hsp heD.le
  have hA : 0 ≤ p.edgeCurveIntensity * (1 + p.speed / p.edgeDistance) *
      max 1 p.stuckEscapeMultiplier :=
    mul_nonneg (mul_nonneg heCI (by linarith))
      (le_trans zero_le_one (le_max_left _ _))
  by_cases hact : y1 < p.edgeDistance
  · simp only [steerTop, if_pos hact]
    simp only [add_sub_cancel_left]
    exact kick_core_bound p y1
      (jsSign (wrapToPi ((if st.nearLeft = true then Real.pi / 4
        else if st.nearRight = true then 3 * Real.pi / 4 else Real.pi / 2) - st.d)))
      (stk = true ∨ st.epf.top + 1 > p.stuckThreshold)
      heCI heD hmult hsp hv hact (abs_jsSign_le _)
  · simp only [steerTop, if_neg hact]
    simpa using hA

theorem steerBottom_d_bound (cv : Canvas) (p : Props) (y1 : ℝ) (stk : Bool)
    (st : SteerSt)
    (heCI : 0 ≤ p.edgeCurveIntensity) (heD : 0 < p.edgeDistance)
    (hmult : 0 ≤ p.stuckEscapeMultiplier) (hsp : 0 ≤ p.speed)
    (hv : -p.speed ≤ cv.height - y1) :
    |(steerBottom cv p y1 stk st).d - st.d| ≤
      p.edgeCurveIntensity * (1 + p.speed / p.edgeDistance) *
        max 1 p.stuckEscapeMultiplier := by
  have h0 : (0:ℝ) ≤ p.speed / p.edgeDistance := div_nonneg hsp heD.le
  have hA : 0 ≤ p.edgeCurveIntensity * (1 + p.speed / p.edgeDistance) *
      max 1 p.stuckEscapeMultiplier :=
    mul_nonneg (mul_nonneg heCI (by linarith))
      (le_trans zero_le_one (le_max_left _ _))
  by_cases hact : y1 > cv.height - p.edgeDistance
  · simp only [steerBottom, if_pos hact]
    simp only [add_sub_cancel_left]
    exact kick_core_bound p (cv.height - y1)
      (jsSign (wrapToPi ((if st.nearLeft = true then 7 * Real.pi / 4
        else if st.nearRight = true then 5 * Real.pi / 4 else 3 * Real.pi / 2) - st.d)))
      (stk = true ∨ st.epf.bottom + 1 > p.stuckThreshold)
      heCI heD hmult hsp hv (by linarith) (abs_jsSign_le _)
  · simp only [steerBottom, if_neg hact]
    simpa using hA

theorem applyFollowing_diff_bound (p : Props) (x1 y1 d : ℝ)
    (tgt : Option (ℝ × ℝ)) (dN : ℝ)
    (hfs : 0 ≤ p.followStrength) (hfd : 0 < p.followDistance)
    (h : applyFollowingBehavior p x1 y1 d tgt = some dN) :
    |dN - d| ≤ Real.pi * p.followStrength := by
  match tgt with
  | none => simp [applyFollowingBehavior] at h
  | some (tx, ty) =>
    simp only [applyFollowingBehavior] at h
    split_ifs at h with hdist
    simp only [Option.some.injEq] at h
    rw [← h]
    simp only [add_sub_cancel_left]
    set dist := Real.sqrt ((tx - x1) * (tx - x1) + (ty - y1) * (ty - y1)) with hdd
    have hd0 : 0 ≤ dist := Real.sqrt_nonneg _
    have hdle : dist ≤ p.followDistance := not_lt.mp hdist
    have hfac : 0 ≤ 1 - dist / p.followDistance := by
      have : dist / p.followDistance ≤ 1 := (div_le_one hfd).mpr hdle
      linarith
    have hfac1 : 1 - dist / p.followDistance ≤ 1 := by
      have : 0 ≤ dist / p.followDistance := div_nonneg hd0 hfd.le
      linarith
    have hw := abs_wrapToPi_le (jsAtan2 (ty - y1) (tx - x1) - d)
    have hadj : |p.followStrength * (1 - dist / p.followDistance)| ≤
        p.followStrength := by
      rw [abs_of_nonneg (mul_nonneg hfs hfac)]
      exact mul_le_of_le_one_right hfs hfac1
    rw [abs_mul]
    exact mul_le_mul hw hadj (abs_nonneg _) Real.pi_pos.le

set_option maxHeartbeats 1600000 in
/-- C1 (amended): after every `update`, the heading lies in `[0, 2π)` and the
position lies in `[0, canvasWidth] × [0, canvasHeight]`, regardless of which
steering branch executed, *provided* the per-tick steering magnitudes cannot
add up past one full turn:
`4·edgeCurveIntensity·(1+speed/edgeDistance)·max(1,stuckEscapeMultiplier)
 + 0.1 + π/2 + π·followStrength + curveIntensity/2 ≤ 2π`
(amply satisfied by the default configuration).  Without such a bound a
single tick can push the heading below `-2π`, where the JavaScript `%`
normalization returns a negative angle. -/
theorem C1_direction_position_invariant (cv : Canvas) (p : Props) (r : RandVals)
    (s : Ship)
    (hW : 0 ≤ cv.width) (hH : 0 ≤ cv.height)
    (hx0 : 0 ≤ s.x) (hx1 : s.x ≤ cv.width)
    (hy0 : 0 ≤ s.y) (hy1 : s.y ≤ cv.height)
    (hd : 0 ≤ s.direction)
    (hsp : 0 ≤ p.speed) (heD : 0 < p.edgeDistance)
    (heCI : 0 ≤ p.edgeCurveIntensity) (hmult : 0 ≤ p.stuckEscapeMultiplier)
    (hfs : 0 ≤ p.followStrength) (hfd : 0 < p.followDistance)
    (hcI : 0 ≤ p.curveIntensity) (hcv : |s.curveValue| ≤ p.curveIntensity / 2)
    (hj0 : 0 ≤ r.jitter) (hj1 : r.jitter ≤ 1)
    (he0 : 0 ≤ r.escape) (he1 : r.escape ≤ 1)
    (hw0 : 0 ≤ r.wanderSample) (hw1 : r.wanderSample ≤ 1)
    (hsum : 4 * (p.edgeCurveIntensity * (1 + p.speed / p.edgeDistance) *
        max 1 p.stuckEscapeMultiplier) + 1 / 10 + Real.pi / 2 +
        Real.pi * p.followStrength + p.curveIntensity / 2 ≤ 2 * Real.pi) :
    (0 ≤ (update cv p r s).direction ∧ (update cv p r s).direction < 2 * Real.pi) ∧
    (0 ≤ (update cv p r s).x ∧ (update cv p r s).x ≤ cv.width) ∧
    (0 ≤ (update cv p r s).y ∧ (update cv p r s).y ≤ cv.height) := by
  have hcos1 := Real.neg_one_le_cos s.direction
  have hcos2 := Real.cos_le_one s.direction
  have hsin1 := Real.neg_one_le_sin s.direction
  have hsin2 := Real.sin_le_one s.direction
  have key : ∀ D : ℝ, -(2 * Real.pi) ≤ D →
      0 ≤ jsRem (D + 2 * Real.pi) (2 * Real.pi) ∧
        jsRem (D + 2 * Real.pi) (2 * Real.pi) < 2 * Real.pi := by
    intro D hD
    exact ⟨jsRem_nonneg _ _ (by linarith) Real.two_pi_pos,
      jsRem_lt _ _ (by linarith) Real.two_pi_pos⟩
  refine ⟨?_, ?_, ?_⟩
  · -- heading bounds
    simp only [update]
    apply key
    set x1v := s.x + Real.cos s.direction * p.speed with hx1v
    set y1v := s.y + Real.sin s.direction * p.speed with hy1v
    clear_value x1v y1v
    have hvL : -p.speed ≤ x1v := by
      rw [hx1v]
      nlinarith
    have hvR : -p.speed ≤ cv.width - x1v := by
      rw [hx1v]
      nlinarith
    have hvT : -p.speed ≤ y1v := by
      rw [hy1v]
      nlinarith
    have hvB : -p.speed ≤ cv.height - y1v := by
      rw [hy1v]
      nlinarith
    clear hx1v hy1v hcos1 hcos2 hsin1 hsin2 hx0 hx1 hy0 hy1
    generalize (if updateMovement p s < p.speed * 0.2
      then s.stuckFrames + 1 else s.stuckFrames - 2) = sfv
    generalize (if updateMovement p s < p.speed * 0.2
      then (if sfv > p.stuckThreshold then true else s.isStuck)
      else (if sfv = 0 then false else s.isStuck)) = stkv
    set st0v : SteerSt :=
      { d := s.direction, epf := s.edgeProximityFrames, nearLeft := false,
        nearRight := false, nearTop := false, nearBottom := false } with hst0v
    have hst0d : st0v.d = s.direction := rfl
    clear_value st0v
    set st1v := steerLeft p x1v stkv st0v with hst1v
    set st2v := steerRight cv p x1v stkv st1v with hst2v
    set st3v := steerTop p y1v stkv st2v with hst3v
    set st4v := steerBottom cv p y1v stkv st3v with hst4v
    have hb1 := steerLeft_d_bound p x1v stkv st0v heCI heD hmult hsp hvL
    have hb2 := steerRight_d_bound cv p x1v stkv st1v heCI heD hmult hsp hvR
    have hb3 := steerTop_d_bound p y1v stkv st2v heCI heD hmult hsp hvT
    have hb4 := steerBottom_d_bound cv p y1v stkv st3v heCI heD hmult hsp hvB
    rw [← hst1v, hst0d] at hb1
    rw [← hst2v] at hb2
    rw [← hst3v] at hb3
    rw [← hst4v] at hb4
    clear_value st1v st2v st3v st4v
    clear hst1v hst2v hst3v hst4v hst0v hst0d
    set B := p.edgeCurveIntensity * (1 + p.speed / p.edgeDistance) *
      max 1 p.stuckEscapeMultiplier with hB
    clear_value B
    have hchain : |st4v.d - s.direction| ≤ 4 * B := by
      have t1 : |st4v.d - s.direction| ≤ |st4v.d - st3v.d| + |st3v.d - s.direction| :=
        abs_sub_le _ _ _
      have t2 : |st3v.d - s.direction| ≤ |st3v.d - st2v.d| + |st2v.d - s.direction| :=
        abs_sub_le _ _ _
      have t3 : |st2v.d - s.direction| ≤ |st2v.d - st1v.d| + |st1v.d - s.direction| :=
        abs_sub_le _ _ _
      linarith
    set d1v := (if 2 ≤ st4v.edgeCount then st4v.d + (r.jitter - 0.5) * 0.2
      else st4v.d) with hd1v
    have hjit : |d1v - st4v.d| ≤ 1 / 10 := by
      rw [hd1v]
      split_ifs with h
      · simp only [add_sub_cancel_left]
        rw [abs_mul]
        have ha : |r.jitter - 0.5| ≤ 1 / 2 := abs_le.mpr ⟨by linarith, by linarith⟩
        have hb : |(0.2:ℝ)| = 0.2 := by norm_num
        rw [hb]
        nlinarith [abs_nonneg (r.jitter - 0.5)]
      · simp
    clear_value d1v
    set d2v := (if stkv = true ∧ sfv > p.stuckThreshold * 2
      then d1v + (r.escape - 0.5) * Real.pi else d1v) with hd2v
    have hesc : |d2v - d1v| ≤ Real.pi / 2 := by
      rw [hd2v]
      split_ifs with h
      · simp only [add_sub_cancel_left]
        rw [abs_mul]
        have ha : |r.escape - 0.5| ≤ 1 / 2 := abs_le.mpr ⟨by linarith, by linarith⟩
        have hb : |Real.pi| = Real.pi := abs_of_pos Real.pi_pos
        rw [hb]
        nlinarith [Real.pi_pos]
      · simp
        positivity
    clear_value d2v
    set cvNewV := (if r.wanderTest < p.curveChangeRate
      then (r.wanderSample - 0.5) * p.curveIntensity else s.curveValue) with hcvNewV
    have hcvb : |cvNewV| ≤ p.curveIntensity / 2 := by
      rw [hcvNewV]
      split_ifs with h
      · rw [abs_mul]
        have ha : |r.wanderSample - 0.5| ≤ 1 / 2 := abs_le.mpr ⟨by linarith, by linarith⟩
        have hb : |p.curveIntensity| = p.curveIntensity := abs_of_nonneg hcI
        rw [hb]
        nlinarith [abs_nonneg (r.wanderSample - 0.5)]
      · exact hcv
    clear_value cvNewV
    set folv := (if p.followEnabled = true
      then applyFollowingBehavior p x1v y1v d2v s.target else none) with hfolv
    clear_value folv
    have h1 : st4v.d - s.direction ≥ -(4 * B) := by
      have := neg_abs_le (st4v.d - s.direction)
      linarith [hchain]
    have h2 : d1v - st4v.d ≥ -(1 / 10) := by
      have := neg_abs_le (d1v - st4v.d)
      linarith [hjit]
    have h3 : d2v - d1v ≥ -(Real.pi / 2) := by
      have := neg_abs_le (d2v - d1v)
      linarith [hesc]
    have hfsp : (0:ℝ) ≤ Real.pi * p.followStrength :=
      mul_nonneg Real.pi_pos.le hfs
    have hcIh : (0:ℝ) ≤ p.curveIntensity / 2 := by linarith
    by_cases hECA : (st4v.nearLeft || st4v.nearRight || st4v.nearTop
        || st4v.nearBottom) = true
    · rw [if_pos hECA]
      linarith
    · rw [if_neg hECA]
      rcases hfo : folv with _ | dN
      · simp only [hfo]
        have hcvlow := neg_abs_le cvNewV
        linarith [hcvb]
      · simp only [hfo]
        rw [hfo] at hfolv
        split_ifs at hfolv with hfe
        have hbnd := applyFollowing_diff_bound p x1v y1v d2v s.target dN
          hfs hfd hfolv.symm
        have := neg_abs_le (dN - d2v)
        linarith
  · -- x bounds
    simp only [update]
    constructor <;> (split_ifs <;> linarith)
  · -- y bounds
    simp only [update]
    constructor <;> (split_ifs <;> linarith)

theorem C1_direction_position_invariant_witness :
    ((0:ℝ) ≤ wShip.direction ∧ |wShip.curveValue| ≤ (mkProps {}).curveIntensity / 2) ∧
    (0 ≤ (update wCanvas (mkProps {}) wRand wShip).direction ∧
      (update wCanvas (mkProps {}) wRand wShip).direction < 2 * Real.pi) ∧
    (0 ≤ (update wCanvas (mkProps {}) wRand wShip).x ∧
      (update wCanvas (mkProps {}) wRand wShip).x ≤ wCanvas.width) ∧
    (0 ≤ (update wCanvas (mkProps {}) wRand wShip).y ∧
      (update wCanvas (mkProps {}) wRand wShip).y ≤ wCanvas.height) := by
  have h3 := Real.pi_gt_three
  have hsum : 4 * ((mkProps {}).edgeCurveIntensity *
      (1 + (mkProps {}).speed / (mkProps {}).edgeDistance) *
      max 1 (mkProps {}).stuckEscapeMultiplier) + 1 / 10 + Real.pi / 2 +
      Real.pi * (mkProps {}).followStrength +
      (mkProps {}).curveIntensity / 2 ≤ 2 * Real.pi := by
    have hm : max (1:ℝ) 3 = 3 := by norm_num
    norm_num [mkProps, hm]
    nlinarith
  refine ⟨⟨le_rfl, by norm_num [wShip, mkProps]⟩, ?_, ?_, ?_⟩ <;>
  · have h := C1_direction_position_invariant wCanvas (mkProps {}) wRand wShip
      (by norm_num [wCanvas]) (by norm_num [wCanvas])
      (by norm_num [wShip]) (by norm_num [wShip, wCanvas])
      (by norm_num [wShip]) (by norm_num [wShip, wCanvas])
      le_rfl
      (by norm_num [mkProps]) (by norm_num [mkProps])
      (by norm_num [mkProps]) (by norm_num [mkProps])
      (by norm_num [mkProps]) (by norm_num [mkProps])
      (by norm_num [mkProps]) (by norm_num [wShip, mkProps])
      (by norm_num [wRand]) (by norm_num [wRand])
      (by norm_num [wRand]) (by norm_num [wRand])
      (by norm_num [wRand]) (by norm_num [wRand])
      hsum
    first
      | exact h.1
      | exact h.2.1
      | exact h.2.2

/-- An extreme configuration: `edgeCurveIntensity = 100`, `speed = 0`. -/
noncomputable def pHuge : Props := mkProps { edgeCurveIntensity := some 100, speed := some 0 }

/-- A ship just inside the left edge zone with a small positive heading. -/
noncomputable def cexShip1 : Ship :=
  ⟨50, 500, 1 / 10, 0, [], ⟨0, 0, 0, 0⟩, 0, 0, 0, false, none⟩

theorem jsRem_huge_eval :
    jsRem (2 * Real.pi - 499 / 10) (2 * Real.pi) = 14 * Real.pi - 499 / 10 := by
  have h1 := Real.pi_gt_d6
  have h2 := Real.pi_lt_d2
  have hneg : (2 * Real.pi - 499 / 10) / (2 * Real.pi) < 0 :=
    div_neg_of_neg_of_pos (by linarith) Real.two_pi_pos
  unfold jsRem jsTrunc
  rw [if_neg (not_le.mpr hneg)]
  have hceil : ⌈(2 * Real.pi - 499 / 10) / (2 * Real.pi)⌉ = -6 := by
    rw [Int.ceil_eq_iff]
    constructor
    · push_cast
      rw [lt_div_iff₀ Real.two_pi_pos]
      nlinarith
    · push_cast
      rw [div_le_iff₀ Real.two_pi_pos]
      nlinarith
  rw [hceil]
  push_cast
  ring

/-- C1 counterexample: with `edgeCurveIntensity = 100` (and `speed = 0`), a
ship at `x = 50`, heading `0.1`, in-bounds, leaves `update` with a *negative*
heading: the left-edge branch subtracts `100·(1-50/100) = 50` radians in one
tick and `(d + 2π) % (2π)` in JavaScript returns a negative value for
`d < -2π`.  The claimed invariant therefore needs a bound on the steering
magnitudes. -/
theorem C1_direction_position_invariant_counterexample :
    (0 ≤ cexShip1.direction ∧ cexShip1.direction < 2 * Real.pi) ∧
    (0 ≤ cexShip1.x ∧ cexShip1.x ≤ wCanvas.width) ∧
    (update wCanvas pHuge wRand cexShip1).direction < 0 := by
  have h1 := Real.pi_gt_d6
  have h2 := Real.pi_lt_d2
  have hx1 : cexShip1.x + Real.cos cexShip1.direction * pHuge.speed = 50 := by
    simp [cexShip1, pHuge, mkProps]
  have hy1 : cexShip1.y + Real.sin cexShip1.direction * pHuge.speed = 500 := by
    simp [cexShip1, pHuge, mkProps]
  refine ⟨⟨by norm_num [cexShip1], by norm_num [cexShip1]; linarith⟩,
    ⟨by norm_num [cexShip1], by norm_num [cexShip1, wCanvas]⟩, ?_⟩
  have heval := update_eval_leftOnly wCanvas pHuge wRand cexShip1
    (by rw [hx1]; norm_num [pHuge, mkProps])
    (by rw [hx1]; norm_num [pHuge, mkProps, wCanvas])
    (by rw [hy1]; norm_num [pHuge, mkProps])
    (by rw [hy1]; norm_num [pHuge, mkProps, wCanvas])
    (by rw [hx1]; norm_num)
    (by norm_num [pHuge, mkProps]) (by norm_num [pHuge, mkProps])
    rfl
    (by norm_num [cexShip1, pHuge, mkProps])
  rw [heval]
  have hsign : jsSign (wrapToPi (0 - cexShip1.direction)) = -1 := by
    have hw : wrapToPi (0 - cexShip1.direction) = -(1 / 10) := by
      rw [show (0:ℝ) - cexShip1.direction = -(1 / 10) by
        simp only [cexShip1]; ring]
      exact wrapToPi_eq_self _ (by linarith) (by linarith)
    rw [hw]
    exact jsSign_neg_of_neg _ (by norm_num)
  have hkick : pHuge.edgeCurveIntensity *
      (1 - (cexShip1.x + Real.cos cexShip1.direction * pHuge.speed) /
        pHuge.edgeDistance) * jsSign (wrapToPi (0 - cexShip1.direction))
      = -50 := by
    rw [hx1, hsign]
    norm_num [pHuge, mkProps]
  have harg : cexShip1.direction + pHuge.edgeCurveIntensity *
      (1 - (cexShip1.x + Real.cos cexShip1.direction * pHuge.speed) /
        pHuge.edgeDistance) * jsSign (wrapToPi (0 - cexShip1.direction)) +
      2 * Real.pi = 2 * Real.pi - 499 / 10 := by
    rw [hkick]
    simp only [cexShip1]
    ring
  simp only [harg, jsRem_huge_eval]
  nlinarith

/-! ## C6: trail bounds -/

theorem update_positions_length (cv : Canvas) (p : Props) (r : RandVals) (s : Ship)
    (hlen : s.positions.length ≤ p.tailLength) :
    (update cv p r s).positions.length ≤ p.tailLength := by
  simp only [update]
  split_ifs with h
  · simp only [List.length_dropLast, List.length_cons]
    omega
  · simp only [List.length_cons] at h ⊢
    omega

theorem updates_positions_length (cv : Canvas) (p : Props) (rf : ℕ → RandVals)
    (n : ℕ) (s : Ship) (hlen : s.positions.length ≤ p.tailLength) :
    (updates cv p rf n s).positions.length ≤ p.tailLength := by
  induction' n with n ih generalizing s rf
  · exact hlen
  · simp only [updates]
    exact ih (fun k => rf (k + 1)) (update cv p (rf 0) s)
      (update_positions_length cv p (rf 0) s hlen)

theorem segDists_nonneg (l : List Pt) : ∀ d ∈ segDists l, 0 ≤ d := by
  induction l with
  | nil => intro d hd; simp [segDists] at hd
  | cons a rest ih =>
    cases rest with
    | nil => intro d hd; simp [segDists] at hd
    | cons b rest2 =>
      intro d hd
      simp only [segDists, List.mem_cons] at hd
      rcases hd with h | h
      · rw [h]
        exact Real.sqrt_nonneg _
      · exact ih d h

theorem distancesLoop_nonneg (tmd acc : ℝ) (ds : List ℝ) (h : ∀ d ∈ ds, 0 ≤ d) :
    ∀ d ∈ distancesLoop tmd acc ds, 0 ≤ d := by
  induction ds generalizing acc with
  | nil => intro d hd; simp [distancesLoop] at hd
  | cons a rest ih =>
    intro d hd
    simp only [distancesLoop] at hd
    split_ifs at hd with hb
    · simp at hd
      rw [hd]
      exact h a (by simp)
    · simp only [List.mem_cons] at hd
      rcases hd with h1 | h1
      · rw [h1]
        exact h a (by simp)
      · exact ih (acc + a) (fun x hx => h x (List.mem_cons_of_mem a hx)) d h1

theorem strokedDists_sum_le (p : Props) (htmd : 0 < p.tailMaxDistance)
    (hop : 0 ≤ p.tailOpacity) :
    ∀ (ds : List ℝ) (acc : ℝ), (∀ d ∈ ds, 0 ≤ d) →
      acc + (strokedDists p acc ds).sum ≤ max acc p.tailMaxDistance := by
  intro ds
  induction ds with
  | nil =>
    intro acc hnn
    simp only [strokedDists, List.sum_nil, add_zero]
    exact le_max_left _ _
  | cons d rest ih =>
    intro acc hnn
    simp only [strokedDists]
    split_ifs with hbreak hgt
    · simp only [List.sum_nil, add_zero]
      exact le_max_left _ _
    all_goals (
      push_neg at hbreak
      have hfac : 0 < p.tailOpacity * (1 - (acc + d) / p.tailMaxDistance) := by
        rcases lt_max_iff.mp hbreak with h | h
        · exact absurd h (lt_irrefl 0)
        · exact h
      have hcd : acc + d < p.tailMaxDistance := by
        rcases eq_or_lt_of_le hop with heq | hpos
        · rw [← heq] at hfac
          simp at hfac
        · have h2 : 0 < 1 - (acc + d) / p.tailMaxDistance := by
            by_contra hcon
            push_neg at hcon
            nlinarith
          exact (div_lt_one htmd).mp (by linarith))
    · exact absurd hgt (not_lt.mpr hcd.le)
    · simp only [List.sum_cons]
      have hrec := ih (acc + d) (fun x hx => hnn x (List.mem_cons_of_mem d hx))
      have hmax : max (acc + d) p.tailMaxDistance = p.tailMaxDistance :=
        max_eq_right hcd.le
      rw [hmax] at hrec
      calc acc + (d + (strokedDists p (acc + d) rest).sum)
          = (acc + d) + (strokedDists p (acc + d) rest).sum := by ring
        _ ≤ p.tailMaxDistance := hrec
        _ ≤ max acc p.tailMaxDistance := le_max_right _ _

/-- C6: the trail length never exceeds `tailLength` over any number of ticks,
and the total Euclidean length of the segments `drawTail` actually strokes
never exceeds `tailMaxDistance` (for any trail, in fact). -/
theorem C6_trail_bounds (cv : Canvas) (p : Props) (rf : ℕ → RandVals) (s : Ship)
    (hlen : s.positions.length ≤ p.tailLength)
    (htmd : 0 < p.tailMaxDistance) (hop : 0 ≤ p.tailOpacity) :
    (∀ n, (updates cv p rf n s).positions.length ≤ p.tailLength) ∧
    (∀ l : List Pt, drawTailStrokedTotal p l ≤ p.tailMaxDistance) := by
  constructor
  · intro n
    exact updates_positions_length cv p rf n s hlen
  · intro l
    have hnn := distancesLoop_nonneg p.tailMaxDistance 0 (segDists l)
      (segDists_nonneg l)
    have h := strokedDists_sum_le p htmd hop
      (distancesLoop p.tailMaxDistance 0 (segDists l)) 0 hnn
    rw [zero_add, max_eq_right htmd.le] at h
    exact h

theorem C6_trail_bounds_witness :
    (wShip.positions.length ≤ (mkProps {}).tailLength ∧
      (0:ℝ) < (mkProps {}).tailMaxDistance) ∧
    (updates wCanvas (mkProps {}) wRandSeq 2 wShip).positions.length ≤
      (mkProps {}).tailLength ∧
    drawTailStrokedTotal (mkProps {})
      [⟨0, 0, 0⟩, ⟨3, 4, 0⟩, ⟨3, 8, 0⟩] ≤ (mkProps {}).tailMaxDistance := by
  have h := C6_trail_bounds wCanvas (mkProps {}) wRandSeq wShip
    (by norm_num [wShip, mkProps]) (by norm_num [mkProps]) (by norm_num [mkProps])
  exact ⟨⟨by norm_num [wShip, mkProps], by norm_num [mkProps]⟩,
    h.1 2, h.2 [⟨0, 0, 0⟩, ⟨3, 4, 0⟩, ⟨3, 8, 0⟩]⟩

/-! ## C9: star depth advance and respawn -/

/-- The `Starfield` defaults of src/Starfield.js (lines 9-16). -/
def sfProps : StarfieldProps := ⟨400, 5, 50, 4⟩

/-- C9 (amended): the shipped `Starfield.draw` (src/Starfield.js) advances
every star's depth by the *constant* `speed · 60 / fpsMax` per tick — it
assumes the configured frame rate instead of scaling by elapsed time; the
delta-time variant (src/unnamed/part_000) advances by `speed · 60 · deltaTime`.
In both, a star whose decremented depth is ≤ 0 is respawned in place at
`z = canvasWidth` with fresh random canvas-centered coordinates. -/
theorem C9_star_depth_advance (p : StarfieldProps) (dT : ℝ) (cv : Canvas)
    (cx cy rx ry : ℝ) (s : StarPt) :
    (0 < s.z - p.speed * 60 / p.fpsMax →
      starStepFixed p cv cx cy rx ry s =
        { s with z := s.z - p.speed * 60 / p.fpsMax }) ∧
    (s.z - p.speed * 60 / p.fpsMax ≤ 0 →
      starStepFixed p cv cx cy rx ry s =
        ⟨rx * cv.width - cx, ry * cv.height - cy, cv.width⟩) ∧
    (0 < s.z - p.speed * 60 * dT →
      starStepDelta p dT cv cx cy rx ry s =
        { s with z := s.z - p.speed * 60 * dT }) ∧
    (s.z - p.speed * 60 * dT ≤ 0 →
      starStepDelta p dT cv cx cy rx ry s =
        ⟨rx * cv.width - cx, ry * cv.height - cy, cv.width⟩) := by
  refine ⟨?_, ?_, ?_, ?_⟩ <;> intro h
  · simp only [starStepFixed]
    rw [if_neg (not_le.mpr h)]
  · simp only [starStepFixed]
    rw [if_pos h]
  · simp only [starStepDelta]
    rw [if_neg (not_le.mpr h)]
  · simp only [starStepDelta]
    rw [if_pos h]

theorem C9_star_depth_advance_witness :
    ((0:ℝ) < 100 - sfProps.speed * 60 / sfProps.fpsMax ∧
      (3:ℝ) - sfProps.speed * 60 / sfProps.fpsMax ≤ 0) ∧
    (starStepFixed sfProps wCanvas 500 500 (1/2) (1/2) ⟨0, 0, 100⟩).z = 94 ∧
    starStepFixed sfProps wCanvas 500 500 (1/2) (1/2) ⟨0, 0, 3⟩ =
      ⟨(1/2) * wCanvas.width - 500, (1/2) * wCanvas.height - 500, wCanvas.width⟩ := by
  have h1 : (0:ℝ) < 100 - sfProps.speed * 60 / sfProps.fpsMax := by
    norm_num [sfProps]
  have h2 : (3:ℝ) - sfProps.speed * 60 / sfProps.fpsMax ≤ 0 := by
    norm_num [sfProps]
  refine ⟨⟨h1, h2⟩, ?_, ?_⟩
  · have h := (C9_star_depth_advance sfProps 0 wCanvas 500 500 (1/2) (1/2)
      ⟨0, 0, 100⟩).1 h1
    rw [h]
    norm_num [sfProps]
  · exact (C9_star_depth_advance sfProps 0 wCanvas 500 500 (1/2) (1/2)
      ⟨0, 0, 3⟩).2.1 h2

/-- C9 counterexample: with the default configuration and a tick whose real
elapsed time is 1/30 s (a display running at 30 fps), the shipped
`Starfield.draw` moves a star from depth 100 to 94 — the constant
`speed·60/fpsMax = 6` — while the claimed deltaTime-scaled advance
`speed·60·(1/30) = 10` would give 90.  The advance is not scaled by the
elapsed time supplied to the tick. -/
theorem C9_star_depth_advance_counterexample :
    (starStepFixed sfProps wCanvas 500 500 (1/2) (1/2) ⟨0, 0, 100⟩).z = 94 ∧
    (100:ℝ) - sfProps.speed * 60 * (1/30) = 90 ∧
    (starStepFixed sfProps wCanvas 500 500 (1/2) (1/2) ⟨0, 0, 100⟩).z ≠
      (starStepDelta sfProps (1/30) wCanvas 500 500 (1/2) (1/2) ⟨0, 0, 100⟩).z := by
  have hfix : (starStepFixed sfProps wCanvas 500 500 (1/2) (1/2) ⟨0, 0, 100⟩).z
      = 94 := by
    simp only [starStepFixed]
    rw [if_neg (by norm_num [sfProps])]
    norm_num [sfProps]
  have hdel : (starStepDelta sfProps (1/30) wCanvas 500 500 (1/2) (1/2)
      ⟨0, 0, 100⟩).z = 90 := by
    simp only [starStepDelta]
    rw [if_neg (by norm_num [sfProps])]
    norm_num [sfProps]
  refine ⟨hfix, by norm_num [sfProps], ?_⟩
  rw [hfix, hdel]
  norm_num

/-! ## C8: color interpolation endpoints -/

/-- The sixteen characters that `toString(16)` can produce for a digit:
`0123456789abcdef`. -/
def lowerHexDigits : List Char := (List.range 16).map hexDigitChar

/-- A digit that survives the parse/format round trip unchanged. -/
def isLowerHexDigit (c : Char) : Bool := decide (c ∈ lowerHexDigits)

theorem hexDigit_roundtrip (c : Char) (h : isLowerHexDigit c = true) :
    ∃ n, n < 16 ∧ hexDigitVal c = some n ∧ hexDigitChar n = c := by
  have hmem : c ∈ lowerHexDigits := of_decide_eq_true h
  obtain ⟨n, hn, hcn⟩ := List.mem_map.mp hmem
  have hn16 : n < 16 := List.mem_range.mp hn
  refine ⟨n, hn16, ?_, hcn⟩
  rw [← hcn]
  interval_cases n <;> decide

theorem jsRound_natCast (n : ℕ) : jsRound (n : ℚ) = (n : ℤ) := by
  unfold jsRound
  rw [Int.floor_eq_iff]
  constructor
  · push_cast
    linarith
  · push_cast
    linarith

theorem toHexByte_of_digits (a b : ℕ) (ha : a < 16) (hb : b < 16) :
    toHexByte ((16 * a + b : ℕ) : ℤ) = [hexDigitChar a, hexDigitChar b] := by
  simp only [toHexByte, Int.toNat_natCast]
  by_cases h16 : 16 * a + b < 16
  · have ha0 : a = 0 := by omega
    subst ha0
    rw [if_pos (by omega)]
    have : (16 * 0 + b) = b := by omega
    rw [this]
    have h0 : hexDigitChar 0 = '0' := by decide
    rw [h0]
  · rw [if_neg h16]
    have hdiv : (16 * a + b) / 16 = a := by omega
    have hmod : (16 * a + b) % 16 = b := by omega
    rw [hdiv, hmod]

theorem parseHexByte_of_digits (c1 c2 : Char) (a b : ℕ)
    (h1 : hexDigitVal c1 = some a) (h2 : hexDigitVal c2 = some b) :
    parseHexByte [c1, c2] = some (16 * a + b) := by
  simp [parseHexByte, h1, h2]

theorem interpolateColors_eval (c1 c2 c3 c4 c5 c6 d1 d2 d3 d4 d5 d6 : Char)
    (a1 a2 a3 b1 b2 b3 : ℕ) (factor : ℚ)
    (hp1 : parseHexByte [c1, c2] = some a1)
    (hp2 : parseHexByte [c3, c4] = some a2)
    (hp3 : parseHexByte [c5, c6] = some a3)
    (hq1 : parseHexByte [d1, d2] = some b1)
    (hq2 : parseHexByte [d3, d4] = some b2)
    (hq3 : parseHexByte [d5, d6] = some b3) :
    interpolateColors ['#', c1, c2, c3, c4, c5, c6] ['#', d1, d2, d3, d4, d5, d6]
      factor =
    some ('#' :: (toHexByte (jsRound ((a1 : ℚ) + factor * ((b1 : ℚ) - (a1 : ℚ)))) ++
      toHexByte (jsRound ((a2 : ℚ) + factor * ((b2 : ℚ) - (a2 : ℚ)))) ++
      toHexByte (jsRound ((a3 : ℚ) + factor * ((b3 : ℚ) - (a3 : ℚ)))))) := by
  have hr1 : removeFirstHash ['#', c1, c2, c3, c4, c5, c6] =
      [c1, c2, c3, c4, c5, c6] := by
    simp [removeFirstHash]
  have hr2 : removeFirstHash ['#', d1, d2, d3, d4, d5, d6] =
      [d1, d2, d3, d4, d5, d6] := by
    simp [removeFirstHash]
  simp only [interpolateColors, hr1, hr2]
  simp only [List.take, List.drop]
  rw [hp1, hp2, hp3, hq1, hq2, hq3]
  rfl

/-- C8 (amended): for colors written as `#` followed by six *lowercase* hex
digits (the exact format `toString(16).padStart(2,'0')` emits),
`interpolateColors` at factor 0 returns the start color exactly and at
factor 1 returns the end color exactly; and in `drawTail` the interpolation
factor saturates to 1 as soon as the cumulative distance reaches 25% of
`tailMaxDistance`.  (On uppercase digits — equally valid hex — the parse
succeeds but the reformatted output is lowercase, so exact equality fails,
see the counterexample.) -/
theorem C8_interpolate_endpoints (c1 c2 c3 c4 c5 c6 d1 d2 d3 d4 d5 d6 : Char)
    (hc : ∀ c ∈ [c1, c2, c3, c4, c5, c6], isLowerHexDigit c = true)
    (hd : ∀ c ∈ [d1, d2, d3, d4, d5, d6], isLowerHexDigit c = true) :
    (interpolateColors ['#', c1, c2, c3, c4, c5, c6]
        ['#', d1, d2, d3, d4, d5, d6] 0 =
      some ['#', c1, c2, c3, c4, c5, c6] ∧
     interpolateColors ['#', c1, c2, c3, c4, c5, c6]
        ['#', d1, d2, d3, d4, d5, d6] 1 =
      some ['#', d1, d2, d3, d4, d5, d6]) ∧
    (∀ (p : Props) (cd : ℝ), 0 < p.tailMaxDistance →
      p.tailMaxDistance * 0.25 ≤ cd → drawTailColorFactor p cd = 1) := by
  obtain ⟨n1, hn1, hv1, hx1⟩ := hexDigit_roundtrip c1 (hc c1 (by simp))
  obtain ⟨n2, hn2, hv2, hx2⟩ := hexDigit_roundtrip c2 (hc c2 (by simp))
  obtain ⟨n3, hn3, hv3, hx3⟩ := hexDigit_roundtrip c3 (hc c3 (by simp))
  obtain ⟨n4, hn4, hv4, hx4⟩ := hexDigit_roundtrip c4 (hc c4 (by simp))
  obtain ⟨n5, hn5, hv5, hx5⟩ := hexDigit_roundtrip c5 (hc c5 (by simp))
  obtain ⟨n6, hn6, hv6, hx6⟩ := hexDigit_roundtrip c6 (hc c6 (by simp))
  obtain ⟨m1, hm1, hw1, hy1⟩ := hexDigit_roundtrip d1 (hd d1 (by simp))
  obtain ⟨m2, hm2, hw2, hy2⟩ := hexDigit_roundtrip d2 (hd d2 (by simp))
  obtain ⟨m3, hm3, hw3, hy3⟩ := hexDigit_roundtrip d3 (hd d3 (by simp))
  obtain ⟨m4, hm4, hw4, hy4⟩ := hexDigit_roundtrip d4 (hd d4 (by simp))
  obtain ⟨m5, hm5, hw5, hy5⟩ := hexDigit_roundtrip d5 (hd d5 (by simp))
  obtain ⟨m6, hm6, hw6, hy6⟩ := hexDigit_roundtrip d6 (hd d6 (by simp))
  have hp1 := parseHexByte_of_digits c1 c2 n1 n2 hv1 hv2
  have hp2 := parseHexByte_of_digits c3 c4 n3 n4 hv3 hv4
  have hp3 := parseHexByte_of_digits c5 c6 n5 n6 hv5 hv6
  have hq1 := parseHexByte_of_digits d1 d2 m1 m2 hw1 hw2
  have hq2 := parseHexByte_of_digits d3 d4 m3 m4 hw3 hw4
  have hq3 := parseHexByte_of_digits d5 d6 m5 m6 hw5 hw6
  refine ⟨⟨?_, ?_⟩, ?_⟩
  · rw [interpolateColors_eval c1 c2 c3 c4 c5 c6 d1 d2 d3 d4 d5 d6
      _ _ _ _ _ _ 0 hp1 hp2 hp3 hq1 hq2 hq3]
    simp only [zero_mul, add_zero, jsRound_natCast]
    rw [toHexByte_of_digits n1 n2 hn1 hn2, toHexByte_of_digits n3 n4 hn3 hn4,
      toHexByte_of_digits n5 n6 hn5 hn6, hx1, hx2, hx3, hx4, hx5, hx6]
    rfl
  · rw [interpolateColors_eval c1 c2 c3 c4 c5 c6 d1 d2 d3 d4 d5 d6
      _ _ _ _ _ _ 1 hp1 hp2 hp3 hq1 hq2 hq3]
    have harith : ∀ x y : ℚ, x + 1 * (y - x) = y := by
      intro x y
      ring
    simp only [harith, jsRound_natCast]
    rw [toHexByte_of_digits m1 m2 hm1 hm2, toHexByte_of_digits m3 m4 hm3 hm4,
      toHexByte_of_digits m5 m6 hm5 hm6, hy1, hy2, hy3, hy4, hy5, hy6]
    rfl
  · intro p cd htmd hcd
    unfold drawTailColorFactor
    have hpos : 0 < p.tailMaxDistance * 0.25 := by nlinarith
    have : (1:ℝ) ≤ cd / (p.tailMaxDistance * 0.25) := (one_le_div hpos).mpr hcd
    exact min_eq_left this

theorem C8_interpolate_endpoints_witness :
    ((∀ c ∈ "ff0000".toList, isLowerHexDigit c = true) ∧
      (0:ℝ) < (mkProps {}).tailMaxDistance) ∧
    interpolateColors "#ff0000".toList "#00ff00".toList 0 =
      some "#ff0000".toList ∧
    interpolateColors "#ff0000".toList "#00ff00".toList 1 =
      some "#00ff00".toList ∧
    drawTailColorFactor (mkProps {}) 125 = 1 := by
  have h := C8_interpolate_endpoints 'f' 'f' '0' '0' '0' '0' '0' '0' 'f' 'f' '0' '0'
    (by decide) (by decide)
  refine ⟨⟨by decide, by norm_num [mkProps]⟩, h.1.1, h.1.2, ?_⟩
  exact h.2 (mkProps {}) 125 (by norm_num [mkProps]) (by norm_num [mkProps])

/-- C8 counterexample: `#FFFFFF` is a valid 6-digit hex color (`parseInt`
accepts uppercase digits), yet `interpolateColors` at factor 0 returns the
re-formatted lowercase `#ffffff`, which is not equal to the input string —
so "returns exactly tailStartColor for every pair of valid 6-digit hex
colors" fails on uppercase input. -/
theorem C8_interpolate_endpoints_counterexample :
    interpolateColors "#FFFFFF".toList "#FFFFFF".toList 0 =
      some "#ffffff".toList ∧
    "#ffffff".toList ≠ "#FFFFFF".toList := by
  constructor
  · have hp : parseHexByte ['F', 'F'] = some 255 := by decide
    have h := interpolateColors_eval 'F' 'F' 'F' 'F' 'F' 'F' 'F' 'F' 'F' 'F' 'F' 'F'
      255 255 255 255 255 255 0 hp hp hp hp hp hp
    simp only [zero_mul, add_zero, jsRound_natCast] at h
    exact h.trans (by decide)
  · decide

/-! ## C10: configuration is never validated -/

/-- C10 (amended): the constructor performs no validation at all — any
supplied value, including negative distances and malformed color strings, is
stored verbatim in `this.props` (the constructor is total and never
throws) — and a color whose first hex digit is invalid flows into
`getRGBAFromHex` at render time, where `parseInt` yields NaN for the red
channel instead of any configuration-time failure. -/
theorem C10_no_config_validation (col : String) (ed : ℝ) :
    ((mkProps { color := some col, edgeDistance := some ed }).color = col ∧
     (mkProps { color := some col, edgeDistance := some ed }).edgeDistance = ed) ∧
    (∀ (c : Char) (rest : List Char), hexDigitVal c = none → c ≠ '#' →
      (getRGBAFromHex (c :: rest)).1 = none) := by
  refine ⟨⟨rfl, rfl⟩, ?_⟩
  intro c rest hval hnh
  simp only [getRGBAFromHex]
  have hrem : removeFirstHash (c :: rest) = c :: removeFirstHash rest := by
    simp [removeFirstHash, hnh]
  rw [hrem]
  cases hrf : removeFirstHash rest with
  | nil => simp [parseHexByte, hval]
  | cons h2 t2 => simp [parseHexByte, hval]

theorem C10_no_config_validation_witness :
    (hexDigitVal 'z' = none ∧ ('z' : Char) ≠ '#') ∧
    (mkProps { color := some "#zzzzzz", edgeDistance := some (-5) }).color
      = "#zzzzzz" ∧
    (mkProps { color := some "#zzzzzz", edgeDistance := some (-5) }).edgeDistance
      = (-5 : ℝ) ∧
    (getRGBAFromHex ['z', 'z']).1 = none := by
  have h := C10_no_config_validation "#zzzzzz" (-5)
  exact ⟨⟨by decide, by decide⟩, h.1.1, h.1.2,
    h.2 'z' ['z'] (by decide) (by decide)⟩

/-- C10 counterexample: the claim says malformed colors and out-of-range
values are rejected with a configuration error; instead the constructor
stores the non-hex color `"#zzzzzz"` and the negative `edgeDistance = -5`
unchanged (it has no failure path), and rendering that color produces NaN
channel values (`parseInt('zz', 16)` is NaN) rather than any earlier
failure. -/
theorem C10_no_config_validation_counterexample :
    (mkProps { color := some "#zzzzzz", edgeDistance := some (-5) }).color
      = "#zzzzzz" ∧
    (mkProps { color := some "#zzzzzz", edgeDistance := some (-5) }).edgeDistance
      = (-5 : ℝ) ∧
    getRGBAFromHex "#zzzzzz".toList = (none, none, none) := by
  exact ⟨rfl, rfl, by decide⟩
